import Mathlib

/-!
Verification development for the multi-source annotation merge engine of
`datumaro/datumaro/components/operations.py` (repository kappazeta/cvat).

The Python module is shallowly embedded below.  Conventions:

* Python floats are modelled as exact rationals (`ℚ`).  The claims under
  study are about control flow, voting arithmetic and set structure, none of
  which hinges on rounding.
* Object identity (`id(...)` keys of the Python maps) is modelled by stable
  integer handles (`aid` fields), as the spec itself recommends in §9
  ("use stable integer handles issued at ingest").
* Python dicts preserve insertion order; they are modelled as association
  lists built in the same order.
* Fallible code (attrs-constructor arity errors, `assert`, iteration over a
  non-iterable, `NotImplementedError`) is modelled with `Except PyErr`.
* The helpers imported from `datumaro.util.annotation_util` (`segment_iou`,
  `bbox_iou`, `mean_bbox`, `max_bbox`, `OKS`, `smooth_line`,
  `find_instances`) and `datumaro.util.find` are not part of the sources;
  each is modelled from the spec, with a doc comment saying so.
-/

set_option maxRecDepth 100000

namespace Ops

/-- Python exception kinds that the embedded code can raise. -/
inductive PyErr
  | typeError
  | assertionError
  | notImplErr
  | valueError
deriving Repr, DecidableEq

/-- Values an attribute can take (the reserved `score` attribute is stored as
a rational, other attributes as needed by the inputs). -/
inductive AttrVal
  | q (v : ℚ)
  | i (v : ℤ)
  | s (v : String)
  | b (v : Bool)
deriving Repr, DecidableEq

/-- Kinds of the embedded tagged variant (spec §3).  Polygon and mask carry
the same generic shape behaviour as bbox in the engine; the claims under
study only exercise label, bbox, polyline, points and caption, so those are
the embedded tags. -/
inductive AnnType
  | label
  | bbox
  | polyline
  | points
  | caption
deriving Repr, DecidableEq

/-- Shape payload of one embedded record (spec §3). -/
inductive Shape
  | sLabel
  | sBbox (x y w h : ℚ)
  | sLine (pts : List (ℚ × ℚ))
  | sPoints (pts : List (ℚ × ℚ))
  | sCaption
deriving Repr, DecidableEq

/-- One embedded record of the data model (the word used by the source for
these records is avoided as a Lean identifier; `Ann` abbreviates it).
`aid` is the identity handle (spec §9); `label` is `none` when the record has
no label; `attrs` is the insertion-ordered attribute dict. -/
structure Ann where
  aid : Nat
  shape : Shape
  label : Option ℤ
  group : Nat
  z_order : ℤ
  attrs : List (String × AttrVal)
deriving Repr, DecidableEq

/-- Tag of a record, derived from its payload. -/
def Ann.typ (a : Ann) : AnnType :=
  match a.shape with
  | .sLabel => .label
  | .sBbox _ _ _ _ => .bbox
  | .sLine _ => .polyline
  | .sPoints _ => .points
  | .sCaption => .caption

/-- Lookup in an insertion-ordered dict. -/
def dictGet (d : List (String × AttrVal)) (k : String) : Option AttrVal :=
  (d.find? (fun kv => kv.1 = k)).map (fun kv => kv.2)

/-- Python `d[k] = v`: replace in place if the key exists, else append. -/
def dictSet (d : List (String × AttrVal)) (k : String) (v : AttrVal) :
    List (String × AttrVal) :=
  if (d.find? (fun kv => kv.1 = k)).isSome then
    d.map (fun kv => if kv.1 = k then (k, v) else kv)
  else d ++ [(k, v)]

/-- Python `d.update(e)`: overwrite existing keys in place, append new ones
in iteration order of `e`. -/
def dictUpdate (d e : List (String × AttrVal)) : List (String × AttrVal) :=
  e.foldl (fun acc kv => dictSet acc kv.1 kv.2) d

/-- Model of `ann.attributes.get('score', 1)`: the reserved confidence
attribute, defaulting to 1; a non-numeric value is out of scope of the
inputs considered (spec §3 fixes `score` to a number in [0,1]). -/
def getScore (a : Ann) : ℚ :=
  match dictGet a.attrs "score" with
  | some (.q v) => v
  | _ => 1

/-- Rectangles are `(x, y, w, h)` quadruples, as in the source. -/
abbrev Box := ℚ × ℚ × ℚ × ℚ

/-- Modelled from the spec (§2 "bounding-box mean/max"; §3 payloads):
`get_bbox` of a shape — a bbox is itself, a polyline/point set is the
axis-aligned hull of its vertices.  The hull of an empty vertex list is the
degenerate origin box (the Python helper would fail there; no embedded run
reaches it). -/
def get_bbox (a : Ann) : Box :=
  match a.shape with
  | .sBbox x y w h => (x, y, w, h)
  | .sLine pts | .sPoints pts =>
    match pts with
    | [] => (0, 0, 0, 0)
    | p :: ps =>
      let xs := (p :: ps).map Prod.fst
      let ys := (p :: ps).map Prod.snd
      let x0 := xs.foldl min p.1
      let y0 := ys.foldl min p.2
      let x1 := xs.foldl max p.1
      let y1 := ys.foldl max p.2
      (x0, y0, x1 - x0, y1 - y0)
  | _ => (0, 0, 0, 0)

/-- Modelled from the spec (glossary: "IoU — Intersection-over-Union of two
shapes' area/pixels"): IoU of two `(x, y, w, h)` rectangles, 0 when they do
not overlap. -/
def rectIoU (a b : Box) : ℚ :=
  let iw := min (a.1 + a.2.2.1) (b.1 + b.2.2.1) - max a.1 b.1
  let ih := min (a.2.1 + a.2.2.2) (b.2.1 + b.2.2.2) - max a.2.1 b.2.1
  if iw ≤ 0 ∨ ih ≤ 0 then 0
  else
    let inter := iw * ih
    let uni := a.2.2.1 * a.2.2.2 + b.2.2.1 * b.2.2.2 - inter
    inter / uni

/-- Modelled from the spec: `bbox_iou` of `datumaro.util.annotation_util` —
IoU of two `(x, y, w, h)` rectangles. -/
def bbox_iou (a b : Box) : ℚ := rectIoU a b

/-- Modelled from the spec (§4.2 "Bbox/Polygon/Mask: segment IoU in [0,1]",
glossary "IoU — Intersection-over-Union of two shapes' area/pixels"):
`segment_iou` of `datumaro.util.annotation_util`.  Two boxes compare by
rectangle IoU; a zero-area shape (polyline, point set, label, caption) has
IoU 0 with everything. -/
def segment_iou (a b : Ann) : ℚ :=
  match a.shape, b.shape with
  | .sBbox _ _ _ _, .sBbox _ _ _ _ => rectIoU (get_bbox a) (get_bbox b)
  | _, _ => 0

/-- Modelled from the spec (§2 "bounding-box mean/max"): `max_bbox` — the
smallest rectangle enclosing all the given boxes; `none` for an empty
list. -/
def maxBboxOfBoxes (boxes : List Box) : Option Box :=
  match boxes with
  | [] => none
  | b :: bs =>
    let x0 := (bs.map (fun c => c.1)).foldl min b.1
    let y0 := (bs.map (fun c => c.2.1)).foldl min b.2.1
    let x1 := (bs.map (fun c => c.1 + c.2.2.1)).foldl max (b.1 + b.2.2.1)
    let y1 := (bs.map (fun c => c.2.1 + c.2.2.2)).foldl max (b.2.1 + b.2.2.2)
    some (x0, y0, x1 - x0, y1 - y0)

/-- Modelled from the spec (§2 "bounding-box mean/max"): `mean_bbox` — the
coordinate-wise mean of the members' boxes' corners, returned as
`(x, y, w, h)`.  Defined for a nonempty member list (the Python helper
divides by the count); the empty case returns the origin box. -/
def mean_bbox (cluster : List Ann) : Box :=
  match cluster with
  | [] => (0, 0, 0, 0)
  | _ :: _ =>
    let n : ℚ := cluster.length
    let boxes := cluster.map get_bbox
    let le := (boxes.map (fun b => b.1)).foldl (· + ·) 0 / n
    let to_ := (boxes.map (fun b => b.2.1)).foldl (· + ·) 0 / n
    let ri := (boxes.map (fun b => b.1 + b.2.2.1)).foldl (· + ·) 0 / n
    let bo := (boxes.map (fun b => b.2.1 + b.2.2.2)).foldl (· + ·) 0 / n
    (le, to_, ri - le, bo - to_)

/-- Modelled from the spec: exact square root on rationals whose numerator
and denominator are perfect squares (every Euclidean length evaluated in
this development is of that form; the floating-point original has no exact
counterpart on other inputs, where this is the integer-square-root
approximation). -/
def ratSqrt (q : ℚ) : ℚ :=
  (Nat.sqrt q.num.toNat : ℚ) / (Nat.sqrt q.den : ℚ)

/-- Euclidean length of a 2-d vector, via `ratSqrt`. -/
def hypot (dx dy : ℚ) : ℚ := ratSqrt (dx * dx + dy * dy)

/-- Arc length of a polyline given as a vertex list. -/
def polyLen (pts : List (ℚ × ℚ)) : ℚ :=
  match pts with
  | [] => 0
  | _ :: tl => (pts.zip tl).foldl
      (fun acc pq => acc + hypot (pq.2.1 - pq.1.1) (pq.2.2 - pq.1.2)) 0

/-- Point at arc-length position `t` along the polyline (clamped to the
last vertex past the end). -/
def polyAt (pts : List (ℚ × ℚ)) (t : ℚ) : ℚ × ℚ :=
  match pts with
  | [] => (0, 0)
  | [p] => p
  | p :: q :: tl =>
    let l := hypot (q.1 - p.1) (q.2 - p.2)
    if t ≤ l then
      if l = 0 then p
      else (p.1 + (q.1 - p.1) * t / l, p.2 + (q.2 - p.2) * t / l)
    else polyAt (q :: tl) (t - l)

/-- Modelled from the spec (§4.2 "resample each line to `max(5, …)` evenly
spaced points via smoothing", "weighted by the smoothing length factors"):
`smooth_line` — `count` points evenly spaced along the arc, together with
the spacing step `L / (count − 1)`. -/
def smooth_line (pts : List (ℚ × ℚ)) (count : Nat) : List (ℚ × ℚ) × ℚ :=
  let L := polyLen pts
  let step := if count ≤ 1 then 0 else L / ((count : ℚ) - 1)
  ((List.range count).map (fun k => polyAt pts ((k : ℚ) * step)), step)

/-- Adjacent-pair means of a distance sequence: `(d[:-1] + d[1:]) * 0.5`. -/
def adjMeans (ds : List ℚ) : List ℚ :=
  match ds with
  | [] => []
  | _ :: tl => (ds.zip tl).map (fun pq => (pq.1 + pq.2) / 2)

/-- LineMatcher.distance (operations.py:600-617): polyline similarity.
Zero common-bbox area returns 1; otherwise both lines are resampled to
`max(max(|a|/2, |b|/2), 5)` points, the per-sample Euclidean distances are
averaged pairwise, scaled by the smoothing steps and the common-bbox area,
and mapped through `|1 − s|`. -/
def lineDistance (a b : Ann) : ℚ :=
  let a_bbox := get_bbox a
  let b_bbox := get_bbox b
  let bbox := (maxBboxOfBoxes [a_bbox, b_bbox]).getD (0, 0, 0, 0)
  let area := bbox.2.2.1 * bbox.2.2.2
  if area = 0 then 1
  else
    let aPts := match a.shape with | .sLine p => p | _ => []
    let bPts := match b.shape with | .sLine p => p | _ => []
    let point_count := max (max (aPts.length) (bPts.length)) 5
    let sa := smooth_line aPts point_count
    let sb := smooth_line bPts point_count
    let dists := (sa.1.zip sb.1).map (fun pq => hypot (pq.1.1 - pq.2.1) (pq.1.2 - pq.2.2))
    let s := ((adjMeans dists).foldl (· + ·) 0) * (1 / 2) * (sa.2 + sb.2) / area
    |1 - s|

/-- PointsMatcher.distance (operations.py:591-597), partial form: `none`
models the Python failure modes — a `KeyError` when the record is not a key
of the identity-keyed instance map, and the `TypeError` of comparing a
`None` instance box.  `imap` maps an identity handle to the instance's
bounding box; `oks` is the OKS kernel (modelled from the spec as an opaque
scale-normalised similarity, a parameter because its Gaussian has no exact
rational form and no claim depends on its value). -/
def pointsDistanceP (oks : Ann → Ann → Box → ℚ) (imap : Nat → Option Box)
    (a b : Ann) : Option ℚ := do
  let a_bbox ← imap a.aid
  let b_bbox ← imap b.aid
  if bbox_iou a_bbox b_bbox ≤ 0 then pure 0
  else pure (oks a b (mean_bbox [{ a with shape := .sBbox a_bbox.1 a_bbox.2.1 a_bbox.2.2.1 a_bbox.2.2.2 },
                                 { b with shape := .sBbox b_bbox.1 b_bbox.2.1 b_bbox.2.2.1 b_bbox.2.2.2 }]))

/-- Total form of the points distance used inside the clustering pipeline,
where the instance map built by `_make_mergers` has an entry for every
source record: the unreachable lookup-failure branch returns 0. -/
def pointsDistance (oks : Ann → Ann → Box → ℚ) (imap : Nat → Option Box)
    (a b : Ann) : ℚ :=
  (pointsDistanceP oks imap a b).getD 0

/-- LabelMatcher.distance (operations.py:494-496): label equality, with the
Python bool read as 1/0 where a number is expected. -/
def labelDistance (a b : Ann) : ℚ :=
  if a.label = b.label then 1 else 0

/-! StatsCounter (operations.py:819-857). -/

/-- StatsCounter.pairwise_stats (operations.py:824-834), per channel:
combines `(count, mean, unbiased variance)` of two samples.  Transcribed
verbatim: note the returned mean is `mean_a * 0.5 + mean_b * 0.5`. -/
def pairwise_stats (count_a mean_a var_a count_b mean_b var_b : ℚ) :
    ℚ × ℚ × ℚ :=
  let delta := mean_b - mean_a
  let m_a := var_a * (count_a - 1)
  let m_b := var_b * (count_b - 1)
  let M2 := m_a + m_b + delta ^ 2 * count_a * count_b / (count_a + count_b)
  (count_a + count_b,
   mean_a * (1 / 2) + mean_b * (1 / 2),
   M2 / (count_a + count_b - 1))

/-- StatsCounter.compute_stats (operations.py:841-857): recursive pairwise
combination over a list of `(count, mean, var)` triples; `fuel` bounds the
recursion depth (the list length suffices; the Python function never
terminates on an empty list, whose embedded value is the zero triple). -/
def compute_stats (fuel : Nat) (l : List (ℚ × ℚ × ℚ)) : ℚ × ℚ × ℚ :=
  match fuel with
  | 0 => (0, 0, 0)
  | fuel + 1 =>
    match l with
    | [] => (0, 0, 0)
    | [x] => x
    | [x, y] => pairwise_stats x.1 x.2.1 x.2.2 y.1 y.2.1 y.2.2
    | _ =>
      let h := l.length / 2
      let a := compute_stats fuel (l.take h)
      let b := compute_stats fuel (l.drop h)
      pairwise_stats a.1 a.2.1 a.2.2 b.1 b.2.1 b.2.2

/-- The count-weighted pooled mean of two samples — what the claim (and the
parallel algorithm the source cites) prescribes for the combined mean. -/
def pooledMean (count_a mean_a count_b mean_b : ℚ) : ℚ :=
  (count_a * mean_a + count_b * mean_b) / (count_a + count_b)

/-- A placeholder record for `getD` fallbacks; no embedded run reads it on
an in-range index. -/
def dummyAnn : Ann := ⟨0, .sLabel, none, 0, 0, []⟩

/-! match_segments (operations.py:730-781). -/

/-- Stable insertion of `x` before the first element of no smaller key —
the earlier element stays in front of equal keys, as in Python's stable
sort. -/
def insertByKey (key : Ann → ℚ) (x : Ann) : List Ann → List Ann
  | [] => [x]
  | y :: ys => if key x ≤ key y then x :: y :: ys else y :: insertByKey key x ys

/-- Stable ascending sort by `key`, the behaviour of Python `list.sort`. -/
def sortByKey (key : Ann → ℚ) : List Ann → List Ann
  | [] => []
  | x :: xs => insertByKey key x (sortByKey key xs)

/-- First maximum of a list under `key` (Python `max` keeps the first of
equal candidates). -/
def maxByFirst {α β : Type} [LinearOrder β] (key : α → β) : List α → Option α
  | [] => none
  | x :: xs => some (xs.foldl (fun best y => if key best < key y then y else best) x)

/-- First index of the maximal value, Python
`max(enumerate(l), key=lambda e: e[1])[0]`. -/
def argmaxFirst (l : List ℚ) : Nat :=
  (l.enum.foldl (fun (best : Nat × ℚ) iv =>
    if best.2 < iv.2 then (iv.1, iv.2) else best) (0, l.getD 0 0)).1

/-- Inner loop of `match_segments` for one row of the distance matrix
(operations.py:754-763): the best still-unclaimed column index, starting
from `max(distances[a_idx, -1], dist_thresh)` — note the initial bound reads
the last column, as the source does with its `-1` index — and overwriting on
ties, so equal distances favour the later column. -/
def bestColumn (dRow : List ℚ) (claimed : Nat → Bool) (dist_thresh : ℚ) :
    Option Nat :=
  let init : ℚ × Option Nat := (max (dRow.getLastD 0) dist_thresh, none)
  ((List.range dRow.length).foldl (fun st bi =>
    if claimed bi then st
    else if dRow.getD bi 0 < st.1 then st
    else (dRow.getD bi 0, some bi)) init).2

/-- Result of `match_segments`, together with the post-call state of the two
input lists (the source sorts both in place). -/
structure MatchResult where
  matched : List (Ann × Ann)
  mispred : List (Ann × Ann)
  a_unmatched : List Ann
  b_unmatched : List Ann
  a_after : List Ann
  b_after : List Ann
deriving Repr, DecidableEq

/-- Python sort key of `match_segments`: ascending `1 − score`, i.e.
descending confidence. -/
def msKey (a : Ann) : ℚ := 1 - getScore a

/-- One outer-loop iteration of `match_segments` (operations.py:751-775) on
the state (matches, mispred, a-unmatched, claimed b-columns). -/
def msStep (aS bS : List Ann) (dmat : List (List ℚ)) (dist_thresh : ℚ)
    (st : List (Ann × Ann) × List (Ann × Ann) × List Ann × List Nat)
    (ai : Nat) : List (Ann × Ann) × List (Ann × Ann) × List Ann × List Nat :=
  let aAnn := aS.getD ai dummyAnn
  let dRow := dmat.getD ai []
  match bestColumn dRow (fun bi => st.2.2.2.contains bi) dist_thresh with
  | none => (st.1, st.2.1, st.2.2.1 ++ [aAnn], st.2.2.2)
  | some bi =>
    let bAnn := bS.getD bi dummyAnn
    if aAnn.label = bAnn.label then
      (st.1 ++ [(aAnn, bAnn)], st.2.1, st.2.2.1, st.2.2.2 ++ [bi])
    else
      (st.1, st.2.1 ++ [(aAnn, bAnn)], st.2.2.1, st.2.2.2 ++ [bi])

/-- match_segments (operations.py:730-781): greedy one-to-one assignment of
two record lists by descending confidence.  Both input lists are first
sorted in place by `1 − score`; `a_after`/`b_after` are their post-call
states. -/
def match_segments (distance : Ann → Ann → ℚ) (dist_thresh : ℚ)
    (a_segms b_segms : List Ann) : MatchResult :=
  let aS := sortByKey msKey a_segms
  let bS := sortByKey msKey b_segms
  let dmat := aS.map (fun a => bS.map (fun b => distance a b))
  if bS.isEmpty then
    ⟨[], [], aS, [], aS, bS⟩
  else
    let fin := (List.range aS.length).foldl (msStep aS bS dmat dist_thresh)
      ([], [], [], [])
    let bun := (List.range bS.length).filterMap (fun bi =>
      if fin.2.2.2.contains bi then none else some (bS.getD bi dummyAnn))
    ⟨fin.1, fin.2.1, fin.2.2.1, bun, aS, bS⟩

/-! the shape matcher (operations.py:502-572). -/

/-- Records of all sources flattened in order, each with its source index —
the model of `id_segm` (identity handles stand for `id(...)`, spec §9). -/
def annSrcPairs (sources : List (List Ann)) : List (Ann × Nat) :=
  (sources.enum.map (fun si => si.2.map (fun a => (a, si.1)))).flatten

/-- Source index of the record with handle `k` (the model of
`get_ann_source` composed with the dataset-index map). -/
def srcOfFn (sources : List (List Ann)) (k : Nat) : Nat :=
  (((annSrcPairs sources).find? (fun p => p.1.aid = k)).map (fun p => p.2)).getD 0

/-- Record with handle `k`. -/
def annOfFn (sources : List (List Ann)) (k : Nat) : Ann :=
  (((annSrcPairs sources).find? (fun p => p.1.aid = k)).map (fun p => p.1)).getD dummyAnn

/-- All ordered source pairs `(i, j)`, `i < j`, in iteration order of the
source (operations.py:535-536). -/
def srcPairs (n : Nat) : List (Nat × Nat) :=
  ((List.range n).map (fun i =>
    (List.range' (i + 1) (n - (i + 1))).map (fun j => (i, j)))).flatten

/-- Adjacency lists of the pairwise match graph, keyed by handle in
flattened order (operations.py:533-540); only label-agreeing `matches`
contribute edges. -/
def adjacencyOf (d : Ann → Ann → ℚ) (pairwise_dist : ℚ)
    (sources : List (List Ann)) : List (Nat × List Nat) :=
  let base := (annSrcPairs sources).map (fun p => (p.1.aid, ([] : List Nat)))
  let edges := (srcPairs sources.length).foldl (fun acc ij =>
    acc ++ ((match_segments d pairwise_dist (sources.getD ij.1 [])
      (sources.getD ij.2 [])).matched.map (fun m => (m.1.aid, m.2.aid)))) []
  edges.foldl (fun adj e =>
    adj.map (fun kv => if kv.1 = e.1 then (kv.1, kv.2 ++ [e.2]) else kv)) base

/-- Neighbour list of handle `k`. -/
def adjGet (adj : List (Nat × List Nat)) (k : Nat) : List Nat :=
  (((adj.find? (fun kv => kv.1 = k)).map (fun kv => kv.2)).getD [])

/-- Ordered duplicate-free insertion — the model of adding to a Python set
of handles whose iteration and pop order this development resolves as
ascending (the CPython order is unspecified, so any fixed order is one
realizable schedule). -/
def insertNat (x : Nat) : List Nat → List Nat
  | [] => [x]
  | y :: ys =>
    if x < y then x :: y :: ys
    else if x = y then y :: ys
    else y :: insertNat x ys

/-- The `_is_close_enough` admission filter (operations.py:515-523): every
current member must be at distance at least `cluster_dist` from the
candidate. -/
def isCloseEnough (d : Ann → Ann → ℚ) (ann : Nat → Ann) (cluster_dist : ℚ)
    (cluster : List Nat) (extra : Nat) : Bool :=
  cluster.all (fun aIdx => ¬ (d (ann aIdx) (ann extra) < cluster_dist))

/-- The `_has_same_source` admission filter (operations.py:525-531). -/
def hasSameSource (src : Nat → Nat) (cluster : List Nat) (extra : Nat) : Bool :=
  cluster.any (fun aIdx => src aIdx = src extra)

/-- One connected-component expansion (operations.py:549-564): pop the
smallest queued handle, add it to the cluster unconditionally, then queue
its unvisited neighbours that pass the two admission filters against the
current cluster.  `fuel` bounds the iteration count; one past the total
record count always suffices since a handle is queued at most once. -/
def bfsExpand (d : Ann → Ann → ℚ) (ann : Nat → Ann) (src : Nat → Nat)
    (cluster_dist : ℚ) (adj : List (Nat × List Nat)) :
    Nat → List Nat → List Nat → List Nat → List Nat × List Nat
  | 0, cluster, visited, _ => (cluster, visited)
  | _ + 1, cluster, visited, [] => (cluster, visited)
  | fuel + 1, cluster, visited, c :: rest =>
    let cluster := insertNat c cluster
    let visited := c :: visited
    let toVisit := (adjGet adj c).foldl (fun tv i =>
      if visited.contains i then tv
      else if 0 < cluster_dist ∧ ¬ isCloseEnough d ann cluster_dist cluster i then tv
      else if hasSameSource src cluster i then tv
      else insertNat i tv) rest
    bfsExpand d ann src cluster_dist adj fuel cluster visited toVisit

/-- _ShapeMatcher.match_annotations (operations.py:506-568): pairwise
matching followed by connected-component expansion with the two admission
filters.  Clusters are listed in seed order; members ascend by handle (the
iteration order of the Python id set is unspecified; ascending is one
realizable schedule). -/
def shapeMatchAnns (d : Ann → Ann → ℚ) (pairwise_dist cluster_dist : ℚ)
    (sources : List (List Ann)) : List (List Ann) :=
  let cd := if cluster_dist < 0 then pairwise_dist else cluster_dist
  let pairsL := annSrcPairs sources
  let ann := annOfFn sources
  let src := srcOfFn sources
  let adj := adjacencyOf d pairwise_dist sources
  let fuel := pairsL.length + 1
  let fin := (adj.map (fun kv => kv.1)).foldl (fun (st : List (List Nat) × List Nat) k =>
    if st.2.contains k then st
    else
      let cv := bfsExpand d ann src cd adj fuel [] st.2 [k]
      (st.1 ++ [cv.1], cv.2)) ([], [])
  fin.1.map (fun cl => cl.map ann)

/-- Number of distinct originating sources among a cluster's members. -/
def distinctSources (sources : List (List Ann)) (cluster : List Ann) : Nat :=
  ((cluster.map (fun a => srcOfFn sources a.aid)).dedup).length

/-! monadic list helpers, written as plain structural recursions so that
proofs and kernel evaluation can unfold them. -/

/-- Traverse a list under `Except`, stopping at the first error. -/
def mapE {e a b : Type} (f : a → Except e b) : List a → Except e (List b)
  | [] => pure []
  | x :: l => do
    let y ← f x
    let ys ← mapE f l
    pure (y :: ys)

/-- Fold a list under `Except`, stopping at the first error. -/
def foldlE {e s a : Type} (f : s → a → Except e s) : s → List a → Except e s
  | st, [] => pure st
  | st, x :: l => do
    let st2 ← f st x
    foldlE f st2 l

/-- Traverse a list under `Option`. -/
def mapO {a b : Type} (f : a → Option b) : List a → Option (List b)
  | [] => some []
  | x :: l => do
    let y ← f x
    let ys ← mapO f l
    pure (y :: ys)

/-! the error stream and the mergers (operations.py:71-728). -/

/-- The error records the engine can emit (spec §7); every record also
carries the item id in the source, constant over one embedded run and
omitted here. -/
inductive Err
  | failedLabelVoting (sources : List Nat) (votes : List (Option ℤ × Nat))
  | failedAttrVoting (sources : List Nat) (name : String) (ann : Ann)
  | noMatchingAnn (sources : List Nat) (ann : Ann)
  | tooClose (a b : Ann) (d : ℚ)
  | wrongGroup (found expected : List String)
deriving Repr, DecidableEq

/-- The attrs-generated constructor of `FailedLabelVotingError`
(operations.py:119-122) binds positional arguments to the required fields
`(item_id, sources, votes)` in order; a call that passes fewer positional
arguments after `item_id` than the two required raises `TypeError`. -/
def failedLabelVotingArity (argsAfterItemId : Nat) : Except PyErr Unit :=
  if argsAfterItemId < 2 then .error .typeError else .ok ()

/-- Iterating over one record, as `[l.label for l in a]` does at
operations.py:649.  Modelled from the spec: the data model (§3) makes a
record a tagged variant with scalar fields, not a sequence — iterating one
raises `TypeError` (spec §9 flags this very expression as a stale-reference
bug). -/
def pyIterAnn (_ : Ann) : Except PyErr (List Ann) := .error .typeError

/-- Vote tally of `_ShapeMerger.find_cluster_label` (operations.py:681-685):
label → (summed score, count), in insertion order. -/
def labelVotes (cluster : List Ann) : List (Option ℤ × ℚ × Nat) :=
  cluster.foldl (fun vs s =>
    if (vs.find? (fun e => e.1 = s.label)).isSome then
      vs.map (fun e =>
        if e.1 = s.label then (e.1, e.2.1 + getScore s, e.2.2 + 1) else e)
    else vs ++ [(s.label, getScore s, 1)]) []

/-- _ShapeMerger.find_cluster_label (operations.py:680-691).  The winner is
the first label of maximal summed score.  When its count is below the
quorum the source constructs `FailedLabelVotingError(item_id, votes)` —
one positional argument after the item id where two are required, so the
call raises `TypeError` instead of recording an error. -/
def find_cluster_label (quorum : ℤ) (cluster : List Ann) :
    Except PyErr (Option ℤ × Option ℚ) :=
  let votes := labelVotes cluster
  match maxByFirst (fun e => e.2.1) votes with
  | none => .error .valueError
  | some lsc =>
    if (lsc.2.2 : ℤ) < quorum then
      match failedLabelVotingArity 1 with
      | .error e => .error e
      | .ok _ =>
        .ok (lsc.1, if lsc.2.2 ≠ 0 then some (lsc.2.1 / (lsc.2.2 : ℚ)) else none)
    else
      .ok (lsc.1, if lsc.2.2 ≠ 0 then some (lsc.2.1 / (lsc.2.2 : ℚ)) else none)

/-- Reserved handle of the `Bbox` object freshly constructed by
`_merge_cluster_shape_mean_box_nearest`; being fresh, it is never a key of
any identity-keyed map built from source records. -/
def meanBoxAid : Nat := 1000000007

/-- The fresh mean-box record `Bbox(*mean_bbox(cluster))`
(operations.py:695). -/
def meanBoxAnn (cluster : List Ann) : Ann :=
  let m := mean_bbox cluster
  ⟨meanBoxAid, .sBbox m.1 m.2.1 m.2.2.1 m.2.2.2, none, 0, 0, []⟩

/-- Position of the representative chosen by
`_merge_cluster_shape_mean_box_nearest` (operations.py:693-698): the first
member of maximal `segment_iou` with the mean box — the generic segment
IoU, not the per-type distance. -/
def repIndex (cluster : List Ann) : Nat :=
  argmaxFirst (cluster.map (fun s => segment_iou (meanBoxAnn cluster) s))

/-- _ShapeMerger._merge_cluster_shape_mean_box_nearest
(operations.py:693-698). -/
def merge_cluster_shape_mean_box_nearest (cluster : List Ann) : Ann :=
  cluster.getD (repIndex cluster) dummyAnn

/-- _ShapeMerger.merge_cluster_shape (operations.py:700-704): the
representative and the mean clamped per-type distance from it. -/
def merge_cluster_shape (d : Ann → Ann → ℚ) (cluster : List Ann) : Ann × ℚ :=
  let shape := merge_cluster_shape_mean_box_nearest cluster
  (shape,
   (cluster.map (fun s => max 0 (d shape s))).foldl (· + ·) 0 / (cluster.length : ℚ))

/-- One cluster of _ShapeMerger.merge_clusters (operations.py:665-678).
Returns the merged record together with the post-merge view of the cluster:
the representative is a cluster member and the source mutates it in place
(label, z_order and the score attribute), which the later attribute vote
observes. -/
def shapeMergeOne (d : Ann → Ann → ℚ) (quorum : ℤ) (cluster : List Ann) :
    Except PyErr (Ann × List Ann) :=
  match find_cluster_label quorum cluster with
  | .error e => .error e
  | .ok ls =>
    let sh := merge_cluster_shape d cluster
    let z := ((maxByFirst (fun a => a.z_order) cluster).getD dummyAnn).z_order
    let score := match ls.1, ls.2 with
      | some _, some l => l * sh.2
      | some _, none => sh.2
      | none, _ => sh.2
    let merged := { sh.1 with
      label := ls.1
      z_order := z
      attrs := dictSet sh.1.attrs "score" (.q score) }
    .ok (merged, cluster.set (repIndex cluster) merged)

/-- _ShapeMerger.merge_clusters (operations.py:665-678). -/
def shapeMergerMergeClusters (d : Ann → Ann → ℚ) (quorum : ℤ)
    (clusters : List (List Ann)) : Except PyErr (List (Ann × List Ann)) :=
  mapE (shapeMergeOne d quorum) clusters

/-- Reserved handle for `Label` records freshly created by
LabelMerger.merge_clusters; their identity is never looked up. -/
def freshLabelAid : Nat := 2000000011

/-- A merged `Label(label, attributes={score: …})` record
(operations.py:655-657): fresh object, default group 0 and z_order 0. -/
def mkLabelAnn (l : Option ℤ) (score : ℚ) : Ann :=
  ⟨freshLabelAid, .sLabel, l, 0, 0, [("score", .q score)]⟩

/-- Label vote tally of LabelMerger.merge_clusters (operations.py:641-643):
label → count, in insertion order. -/
def labelCounts (cluster : List Ann) : List (Option ℤ × Nat) :=
  cluster.foldl (fun vs s =>
    if (vs.find? (fun e => e.1 = s.label)).isSome then
      vs.map (fun e => if e.1 = s.label then (e.1, e.2 + 1) else e)
    else vs ++ [(s.label, 1)]) []

/-- LabelMerger.merge_clusters (operations.py:636-659).  One merged label
per id whose count clears the quorum, scored `count / n_datasets`.  For a
label below quorum the source evaluates `[l.label for l in a]` over a
cluster member — iterating a record raises `TypeError`, so the intended
`FailedLabelVotingError` is never recorded. -/
def labelMergerMergeClusters (srcOf : Nat → Nat) (quorum : ℤ) (nDatasets : Nat)
    (clusters : List (List Ann)) : Except PyErr (List Ann × List Err) := do
  if 1 < clusters.length then .error .assertionError
  else match clusters with
  | [] => pure ([], [])
  | cluster :: _ =>
    foldlE (fun (acc : List Ann × List Err) lv => do
      if (lv.2 : ℤ) < quorum then do
        let srcsRaw ← mapE (fun a => do
          let ls ← pyIterAnn a
          pure (if lv.1 ∈ ls.map (fun l => l.label) then none
                else some (srcOf a.aid))) cluster
        let srcs := (srcsRaw.filterMap id).dedup
        failedLabelVotingArity 2
        pure (acc.1, acc.2 ++ [.failedLabelVoting srcs (labelCounts cluster)])
      else
        pure (acc.1 ++ [mkLabelAnn lv.1 ((lv.2 : ℚ) / (nDatasets : ℚ))], acc.2))
      ([], []) (labelCounts cluster)

/-! attribute voting (operations.py:376-410). -/

/-- Increment the tally of one value (insertion-ordered). -/
def bumpVal (vs : List (AttrVal × Nat)) (v : AttrVal) : List (AttrVal × Nat) :=
  if (vs.find? (fun e => e.1 = v)).isSome then
    vs.map (fun e => if e.1 = v then (e.1, e.2 + 1) else e)
  else vs ++ [(v, 1)]

/-- The `attr_votes` tally (operations.py:382-387): attribute name →
(value → count), dicts in insertion order. -/
def attrVotes (cluster : List Ann) : List (String × List (AttrVal × Nat)) :=
  cluster.foldl (fun av s =>
    s.attrs.foldl (fun av kv =>
      if (av.find? (fun e => e.1 = kv.1)).isSome then
        av.map (fun e => if e.1 = kv.1 then (e.1, bumpVal e.2 kv.2) else e)
      else av ++ [(kv.1, [(kv.2, 1)])]) av) []

/-- IntersectMerge._find_cluster_attrs (operations.py:376-410).  Returns the
winning attributes and the vote-failure errors.  The provoker/outlier
filters transcribe the source comprehensions, whose condition reads the
stale loop variable `s` — the last cluster member of the tally loop — so
the spelled-out condition ignores the bound member (`fun _ => …`), exactly
as the source does. -/
def find_cluster_attrs (quorum : ℤ) (srcOf : Nat → Nat) (cluster : List Ann)
    (ann : Ann) : List (String × AttrVal) × List Err :=
  let av := attrVotes cluster
  let sLast := cluster.getLastD dummyAnn
  av.foldl (fun (acc : List (String × AttrVal) × List Err) nv =>
    match maxByFirst (fun e => e.2) nv.2 with
    | none => acc
    | some wc =>
      if (wc.2 : ℤ) < quorum then
        let total : ℕ := (nv.2.map (fun e => e.2)).foldl (· + ·) 0
        let missing :=
          if (total : ℤ) < quorum then
            ((cluster.filter (fun _ => dictGet sLast.attrs nv.1 = some wc.1)).map
              (fun a => srcOf a.aid)).dedup
          else
            ((cluster.filter (fun _ => ¬ dictGet sLast.attrs nv.1 = some wc.1)).map
              (fun a => srcOf a.aid)).dedup
        (acc.1, acc.2 ++ [.failedAttrVoting missing nv.1 ann])
      else (acc.1 ++ [(nv.1, wc.1)], acc.2)) ([], [])

/-! cluster groups (operations.py:344-374) and group renumbering. -/

/-- Distinct group ids of a cluster's members, first-occurrence order. -/
def groupsOf (cluster : List Ann) : List Nat :=
  (cluster.map (fun a => a.group)).dedup

/-- Nonempty intersection of two id sets. -/
def interNonempty (a b : List Nat) : Bool := a.any (fun x => b.contains x)

/-- Set union keeping the left operand's order (only membership of the
result is ever consulted). -/
def unionIds (a b : List Nat) : List Nat := a ++ b.filter (fun x => ¬ a.contains x)

/-- IntersectMerge._find_cluster_groups (operations.py:344-374): each entry
is (member cluster indices, accumulated segment-group ids).  Transcribed
with both forward passes — the second pass re-adds already-visited clusters
exactly as the source does. -/
def find_cluster_groups (clusters : List (List Ann)) :
    List (List Nat × List Nat) :=
  ((List.range clusters.length).foldl
    (fun (st : List (List Nat × List Nat) × List Nat) aIdx =>
      if st.2.contains aIdx then st
      else
        let visited := st.2 ++ [aIdx]
        let rest := List.range' (aIdx + 1) (clusters.length - (aIdx + 1))
        let aG := rest.foldl (fun g bIdx =>
          let bG := groupsOf (clusters.getD bIdx [])
          if interNonempty g bG then unionIds g bG else g)
          (groupsOf (clusters.getD aIdx []))
        let mv := rest.foldl (fun (mv : List Nat × List Nat) bIdx =>
          let bG := groupsOf (clusters.getD bIdx [])
          if interNonempty aG bG then (mv.1 ++ [bIdx], mv.2 ++ [bIdx]) else mv)
          ([aIdx], visited)
        if aG = [0] then (st.1, mv.2)
        else (st.1 ++ [(mv.1, aG)], mv.2))
    ([], [])).1

/-- Position of the first group-map entry containing the cluster index. -/
def firstGroupIdx (gm : List (List Nat × List Nat)) (clIdx : Nat) : Option Nat :=
  match gm with
  | [] => none
  | e :: tl =>
    if e.1.contains clIdx then some 0
    else (firstGroupIdx tl clIdx).map (fun i => i + 1)

/-- New group id of the cluster at global index `clIdx`
(operations.py:246-252, with `find` of `datumaro.util` modelled from its
use: first element satisfying the predicate, else `None`): one past the
first group-map entry containing the cluster, or 0. -/
def newGroupId (gm : List (List Nat × List Nat)) (clIdx : Nat) : Nat :=
  match firstGroupIdx gm clIdx with
  | none => 0
  | some i => i + 1

/-! consistency checks (operations.py:412-474). -/

/-- IntersectMerge._check_cluster_sources (operations.py:412-430). -/
def check_cluster_sources (nDatasets : Nat) (itemNonempty : Nat → Bool)
    (srcOf : Nat → Nat) (cluster : List Ann) : List Err :=
  if cluster.length = nDatasets then []
  else
    let clusterSrcs := cluster.map (fun a => srcOf a.aid)
    let missing := ((List.range nDatasets).filter
      (fun s => ¬ clusterSrcs.contains s)).filter (fun s => itemNonempty s)
    if missing.isEmpty then []
    else [.noMatchingAnn missing (cluster.getD 0 dummyAnn)]

/-- IntersectMerge._check_annotation_distance (operations.py:432-437):
unordered pairs in input order, an error for each pair closer than
`close_distance` under the per-type distance. -/
def check_ann_distance (d : Ann → Ann → ℚ) (close_distance : ℚ)
    (anns : List Ann) : List Err :=
  (List.range anns.length).foldl (fun acc i =>
    (List.range' (i + 1) (anns.length - (i + 1))).foldl (fun acc j =>
      let a := anns.getD i dummyAnn
      let b := anns.getD j dummyAnn
      let dd := d a b
      if close_distance < dd then acc ++ [.tooClose a b dd] else acc) acc) []

/-- Modelled from the spec (§4.4.2 "instance discovery", §3 group
semantics): `find_instances` of `datumaro.util.annotation_util` — records
sharing a non-zero group id form one instance, every group-0 record is its
own instance. -/
def find_instances (anns : List Ann) : List (List Ann) :=
  let nz := ((anns.filter (fun a => a.group ≠ 0)).map (fun a => a.group)).dedup
  nz.map (fun g => anns.filter (fun a => a.group = g)) ++
    (anns.filter (fun a => a.group = 0)).map (fun a => [a])

/-- The inner `_check_group` (operations.py:446-454): the first configured
spec that shares a label with the group but is missed or exceeded yields
one error. -/
def checkOneGroup (checkGroups : List (List String × List String))
    (groupLabels : List String) : List Err :=
  match checkGroups.find? (fun cg =>
    ¬ (cg.1.filter (fun l => groupLabels.contains l)).isEmpty ∧
      (¬ (groupLabels.filter (fun l => ¬ cg.1.contains l)).isEmpty ∨
       ¬ ((cg.1.filter (fun l => ¬ groupLabels.contains l)).filter
            (fun l => ¬ cg.2.contains l)).isEmpty)) with
  | none => []
  | some cg => [.wrongGroup groupLabels cg.1]

/-- IntersectMerge._check_groups (operations.py:439-471). Records without a
label are skipped (the embedded records always expose the field; a `none`
label matches the unlabeled case). -/
def check_groups (groups : List (List (String × Bool)))
    (labelName : ℤ → String) (anns : List Ann) : List Err :=
  let checkGroups := groups.map (fun g =>
    (g.map (fun l => l.1), (g.filter (fun l => l.2)).map (fun l => l.1)))
  (find_instances anns).foldl (fun acc group =>
    let st := group.foldl (fun (st : List String × List Err) a =>
      match a.label with
      | none => st
      | some l =>
        let nm := labelName l
        if a.group ≠ 0 then
          (if st.1.contains nm then st.1 else st.1 ++ [nm], st.2)
        else (st.1, st.2 ++ checkOneGroup checkGroups [nm])) ([], acc)
    if st.1.isEmpty then st.2 else st.2 ++ checkOneGroup checkGroups st.1) []

/-! the IntersectMerge per-item pipeline (operations.py:205-342). -/

/-- The configuration record (operations.py:142-163, spec §6).  `sigma` is
folded into the OKS parameter of the points distance. -/
structure Conf where
  pairwise_dist : ℚ := 1 / 2
  output_conf_thresh : ℚ := 0
  quorum : ℤ := 0
  ignored_attributes : List String := []
  groups : List (List (String × Bool)) := []
  close_distance : ℚ := 3 / 4
deriving Repr, DecidableEq

/-- The per-item instance map of `_make_mergers` (operations.py:324-333):
handle → bounding box of the record's instance, where the instance box is
the max-bbox over the instance's box-like members (of the embedded tags,
`bbox`; the source also admits polygon and mask) and is `none` for an
instance without any. -/
def mkInstanceMap (sources : List (List Ann)) : List (Nat × Option Box) :=
  (sources.map (fun s =>
    ((find_instances s).map (fun inst =>
      let instBbox := maxBboxOfBoxes
        ((inst.filter (fun a => a.typ = AnnType.bbox)).map get_bbox)
      inst.map (fun a => (a.aid, instBbox)))).flatten)).flatten

/-- Function view of the instance map: `none` both for a missing key (a
`KeyError` in the source) and for an instance without a box. -/
def imapFn (m : List (Nat × Option Box)) (k : Nat) : Option Box :=
  match m.find? (fun e => e.1 = k) with
  | some e => e.2
  | none => none

/-- The per-type distance table (spec §9 recommends exactly this strategy
table in place of class dispatch).  The caption entry is unreachable: the
caption matcher raises before any distance is consulted. -/
def typeDistance (oks : Ann → Ann → Box → ℚ) (imap : Nat → Option Box) :
    AnnType → Ann → Ann → ℚ
  | .label => labelDistance
  | .bbox => segment_iou
  | .polyline => lineDistance
  | .points => pointsDistance oks imap
  | .caption => fun _ _ => 0

/-- Records of one source grouped by tag in first-occurrence order
(operations.py:286-289). -/
def srcByType (s : List Ann) : List (AnnType × List Ann) :=
  s.foldl (fun acc a =>
    if (acc.find? (fun e => e.1 = a.typ)).isSome then
      acc.map (fun e => if e.1 = a.typ then (e.1, e.2 ++ [a]) else e)
    else acc ++ [(a.typ, [a])]) []

/-- `all_by_type` (operations.py:284-291): tag → per-source record lists,
only sources that have the tag contributing a list. -/
def allByType (sources : List (List Ann)) : List (AnnType × List (List Ann)) :=
  sources.foldl (fun acc s =>
    (srcByType s).foldl (fun acc kv =>
      if (acc.find? (fun e => e.1 = kv.1)).isSome then
        acc.map (fun e => if e.1 = kv.1 then (e.1, e.2 ++ [kv.2]) else e)
      else acc ++ [(kv.1, [kv.2])]) acc) []

/-- Per-type matching (operations.py:338-339, 489-499, 620-622): labels
collapse into a single flattened cluster, captions raise
`NotImplementedError`, shapes run the graph-closure clusterer with the
conf's `pairwise_dist` and the default `cluster_dist = −1`. -/
def matchForType (oks : Ann → Ann → Box → ℚ) (imap : Nat → Option Box)
    (conf : Conf) (t : AnnType) (perSrc : List (List Ann)) :
    Except PyErr (List (List Ann)) :=
  match t with
  | .label => pure [perSrc.flatten]
  | .caption => .error .notImplErr
  | _ => pure (shapeMatchAnns (typeDistance oks imap t) conf.pairwise_dist (-1) perSrc)

/-- The zip stage of merge_annotations (operations.py:239-252): each merged
record paired with its cluster view receives the voted attributes
(ignored names dropped, its own attributes overriding) and its new group
id; merged records beyond the cluster list — possible only for labels —
pass through untouched, as `zip` stops at the shorter list. -/
def zipStage (quorum : ℤ) (ignored : List String) (srcOf : Nat → Nat)
    (gm : List (List Nat × List Nat)) (offset : Nat)
    (merged : List Ann) (views : List (List Ann)) : List Ann × List Err :=
  let n := min merged.length views.length
  (List.range merged.length).foldl (fun (st : List Ann × List Err) i =>
    let m := merged.getD i dummyAnn
    if i < n then
      let va := find_cluster_attrs quorum srcOf (views.getD i []) m
      let voted := va.1.filter (fun kv => ¬ ignored.contains kv.1)
      let m2 := { m with
        attrs := dictUpdate voted m.attrs
        group := newGroupId gm (offset + i) }
      (st.1 ++ [m2], st.2 ++ va.2)
    else (st.1 ++ [m], st.2)) ([], [])

/-- One tag of the per-item merge loop (operations.py:233-257): the
cluster-completeness check, the per-tag merge, the zip stage and the
proximity check, errors in source order. -/
def processType (oks : Ann → Ann → Box → ℚ) (imap : Nat → Option Box)
    (conf : Conf) (nDatasets : Nat) (itemNonempty : Nat → Bool)
    (srcOf : Nat → Nat) (gm : List (List Nat × List Nat)) (offset : Nat)
    (t : AnnType) (clusters : List (List Ann)) :
    Except PyErr (List Ann × List Err) :=
  let errs1 := (clusters.map (check_cluster_sources nDatasets itemNonempty srcOf)).flatten
  let mveE : Except PyErr (List Ann × List (List Ann) × List Err) :=
    match t with
    | AnnType.label =>
      match labelMergerMergeClusters srcOf conf.quorum nDatasets clusters with
      | .error e => .error e
      | .ok me => .ok (me.1, clusters, me.2)
    | AnnType.caption => .error .notImplErr
    | _ =>
      match shapeMergerMergeClusters (typeDistance oks imap t) conf.quorum clusters with
      | .error e => .error e
      | .ok mv => .ok (mv.map (fun p => p.1), mv.map (fun p => p.2), [])
  match mveE with
  | .error e => .error e
  | .ok mve =>
    let za := zipStage conf.quorum conf.ignored_attributes srcOf gm offset mve.1 mve.2.1
    let closeErrs :=
      if conf.close_distance ≠ 0 then
        check_ann_distance (typeDistance oks imap t) conf.close_distance za.1
      else []
    .ok (za.1, errs1 ++ mve.2.2 ++ za.2 ++ closeErrs)

/-- The cluster lists per tag, in tag order (operations.py:284-297). -/
def clustersByTypeOf (oks : Ann → Ann → Box → ℚ) (imap : Nat → Option Box)
    (conf : Conf) (sources : List (List Ann)) :
    Except PyErr (List (AnnType × List (List Ann))) :=
  mapE (fun kv =>
    match matchForType oks imap conf kv.1 kv.2 with
    | .error e => .error e
    | .ok cs => .ok (kv.1, cs)) (allByType sources)

/-- IntersectMerge.merge_annotations (operations.py:224-262): match each
tag, discover cluster groups over the flattened cluster list, merge and
annotate per tag, then run the group check. -/
def mergeAnnsPipeline (oks : Ann → Ann → Box → ℚ) (conf : Conf)
    (nDatasets : Nat) (itemNonempty : Nat → Bool) (labelName : ℤ → String)
    (sources : List (List Ann)) : Except PyErr (List Ann × List Err) :=
  let imap := imapFn (mkInstanceMap sources)
  let srcOf := srcOfFn sources
  match clustersByTypeOf oks imap conf sources with
  | .error e => .error e
  | .ok cbt =>
    let joined := (cbt.map (fun e => e.2)).flatten
    let gm := find_cluster_groups joined
    match foldlE (fun (acc : List Ann × List Err × Nat) tc =>
        match processType oks imap conf nDatasets itemNonempty srcOf gm
          acc.2.2 tc.1 tc.2 with
        | .error e => .error e
        | .ok ae => .ok (acc.1 ++ ae.1, acc.2.1 ++ ae.2, acc.2.2 + tc.2.length))
        ([], [], 0) cbt with
    | .error e => .error e
    | .ok fin =>
      let groupErrs :=
        if ¬ conf.groups.isEmpty then check_groups conf.groups labelName fin.1 else []
      .ok (fin.1, fin.2.1 ++ groupErrs)

/-- IntersectMerge.merge_items, the per-item tail (operations.py:217-222):
merge, then drop merged records whose score is below
`output_conf_thresh`. -/
def mergeItemAnns (oks : Ann → Ann → Box → ℚ) (conf : Conf)
    (nDatasets : Nat) (itemNonempty : Nat → Bool) (labelName : ℤ → String)
    (sources : List (List Ann)) : Except PyErr (List Ann × List Err) :=
  match mergeAnnsPipeline oks conf nDatasets itemNonempty labelName sources with
  | .error e => .error e
  | .ok ae => .ok (ae.1.filter (fun a => conf.output_conf_thresh ≤ getScore a), ae.2)

/-- The representative-selection rule as the spec words it (§4.3.2 step 2,
claim C5): the member of highest type-specific distance from the mean box,
first on ties; `none` when that distance is undefined on the mean-box pair
(for point sets the instance-map lookup of the fresh mean box fails). -/
def specRepresentative (typeDist : Ann → Ann → Option ℚ) (cluster : List Ann) :
    Option Ann := do
  let mAnn := meanBoxAnn cluster
  let dist ← mapO (fun s => typeDist mAnn s) cluster
  match cluster with
  | [] => none
  | _ => pure (cluster.getD (argmaxFirst dist) dummyAnn)

/-! concrete runs used by the theorems. -/

/-- The trivial OKS kernel used by concrete runs whose control flow never
consults OKS. -/
def oks1 : Ann → Ann → Box → ℚ := fun _ _ _ => 1

/-- Boxes of the C1 run: unit-height-10 rectangles on x-intervals
[0,10], [2,12], [1,11], [3,13], one per record. -/
def exA : Ann := ⟨0, .sBbox 0 0 10 10, some 0, 0, 0, []⟩
def exB : Ann := ⟨1, .sBbox 2 0 10 10, some 0, 0, 0, []⟩
def exC : Ann := ⟨2, .sBbox 1 0 10 10, some 0, 0, 0, []⟩
def exD : Ann := ⟨3, .sBbox 3 0 10 10, some 0, 0, 0, []⟩

/-- The C1 sources: records `exA`, `exB` alone in sources 0 and 1; `exC`
and `exD` both in source 2. -/
def c1sources : List (List Ann) := [[exA], [exB], [exC, exD]]

/-- The C1 matcher run: bbox clustering at `pairwise_dist = 1/2` (the
orchestrator's default), default `cluster_dist = −1`. -/
def c1clusters : List (List Ann) :=
  shapeMatchAnns segment_iou (1 / 2) (-1) c1sources

/-- The C2 run: two boxes with scores 1/2 and 1, so the in-place sort by
descending score reverses the list. -/
def c2lo : Ann := ⟨0, .sBbox 0 0 1 1, some 0, 0, 0, [("score", .q (1 / 2))]⟩
def c2hi : Ann := ⟨1, .sBbox 5 5 1 1, some 0, 0, 0, []⟩
def c2run : MatchResult := match_segments segment_iou 1 [c2lo, c2hi] []

/-- The C3 run: a singleton bbox cluster under quorum 2, so the winning
count 1 is below quorum. -/
def c3cluster : List Ann := [⟨0, .sBbox 0 0 10 10, some 0, 0, 0, []⟩]

/-- The C4 run: two point sets with disjoint instance boxes, matched at
`pairwise_dist = 0`. -/
def c4p1 : Ann := ⟨0, .sPoints [(0, 0)], some 0, 0, 0, []⟩
def c4p2 : Ann := ⟨1, .sPoints [(5, 5)], some 0, 0, 0, []⟩
def c4imap : Nat → Option Box :=
  imapFn [(0, some (0, 0, 1, 1)), (1, some (5, 5, 1, 1))]
def c4clusters : List (List Ann) :=
  shapeMatchAnns (pointsDistance oks1 c4imap) 0 (-1) [[c4p1], [c4p2]]

/-- The C5 cluster: two point sets with instance boxes in the map; the
fresh mean box is not a key of the map. -/
def c5p1 : Ann := ⟨0, .sPoints [(1, 1)], some 0, 0, 0, []⟩
def c5p2 : Ann := ⟨1, .sPoints [(2, 2)], some 0, 0, 0, []⟩
def c5imap : Nat → Option Box :=
  imapFn [(0, some (0, 0, 4, 4)), (1, some (1, 1, 4, 4))]
def c5cluster : List Ann := [c5p1, c5p2]

/-- The C6 cluster: attribute `x` valued 1, 1, 2 across sources 0, 1, 2,
voted under quorum 3. -/
def c6a1 : Ann := ⟨0, .sBbox 0 0 10 10, some 0, 0, 0, [("x", .i 1)]⟩
def c6a2 : Ann := ⟨1, .sBbox 0 0 10 10, some 0, 0, 0, [("x", .i 1)]⟩
def c6a3 : Ann := ⟨2, .sBbox 0 0 10 10, some 0, 0, 0, [("x", .i 2)]⟩
def c6cluster : List Ann := [c6a1, c6a2, c6a3]
def c6run : List (String × AttrVal) × List Err :=
  find_cluster_attrs 3 (fun k => k) c6cluster c6a1

/-- The C7 run: one source with two disjoint boxes in groups 1 and 2,
scores 1/10 and 1, merged with `output_conf_thresh = 1/2`. -/
def c7b1 : Ann := ⟨0, .sBbox 0 0 10 10, some 0, 1, 0, [("score", .q (1 / 10))]⟩
def c7b2 : Ann := ⟨1, .sBbox 20 20 10 10, some 0, 2, 0, [("score", .q 1)]⟩
def c7conf : Conf := { output_conf_thresh := 1 / 2 }
def c7run : Except PyErr (List Ann × List Err) :=
  mergeItemAnns oks1 c7conf 1 (fun _ => true) (fun _ => "lbl") [[c7b1, c7b2]]

/-- The C8 run: two horizontal doubled-back polylines 5 apart whose line
distance is 2, merged from two sources under the default conf. -/
def c8a : Ann := ⟨0, .sLine [(0, 0), (10, 0), (0, 0), (10, 0)], some 0, 0, 0, []⟩
def c8b : Ann := ⟨1, .sLine [(0, 5), (10, 5), (0, 5), (10, 5)], some 0, 0, 0, []⟩
def c8run : Except PyErr (List Ann × List Err) :=
  mergeItemAnns oks1 {} 2 (fun _ => true) (fun _ => "lbl") [[c8a], [c8b]]

/-- The C9 run: one label cluster holding a single `Label 0` from source 0
of two datasets, under quorum 2. -/
def c9cluster : List Ann := [⟨0, .sLabel, some 0, 0, 0, []⟩]

/-- The merged record of the C7 run that survives the confidence filter. -/
def c7survivor : Ann :=
  ⟨1, .sBbox 20 20 10 10, some 0, 2, 0, [("score", .q 1)]⟩

/-- The merged record of the C8 run. -/
def c8merged : Ann :=
  ⟨0, .sLine [(0, 0), (10, 0), (0, 0), (10, 0)], some 0, 0, 0,
   [("score", .q (3 / 2))]⟩

/-- Density of group renumbering (spec §8 property 5, claim C7): the
non-zero group ids of a merged item form `{1, …, k}` for some `k`. -/
def denseGroups (anns : List Ann) : Prop :=
  ∃ k : ℕ, ∀ g : ℕ,
    (g ≠ 0 ∧ g ∈ anns.map (fun a => a.group)) ↔ (1 ≤ g ∧ g ≤ k)

end Ops

namespace Ops

/-! generic helper lemmas. -/

theorem foldl_add_init (l : List ℚ) (x : ℚ) :
    l.foldl (· + ·) x = x + l.foldl (· + ·) 0 := by
  induction l generalizing x with
  | nil => simp
  | cons a tl ih =>
    simp only [List.foldl_cons]
    rw [ih (x + a), ih (0 + a)]
    ring

theorem foldl_add_nonneg (l : List ℚ) (h : ∀ x ∈ l, 0 ≤ x) :
    0 ≤ l.foldl (· + ·) 0 := by
  induction l with
  | nil => simp
  | cons a tl ih =>
    simp only [List.foldl_cons]
    rw [foldl_add_init]
    have ha := h a (by simp)
    have ht := ih (fun x hx => h x (by simp [hx]))
    linarith

theorem foldl_add_le_len (l : List ℚ) (h : ∀ x ∈ l, x ≤ 1) :
    l.foldl (· + ·) 0 ≤ (l.length : ℚ) := by
  induction l with
  | nil => simp
  | cons a tl ih =>
    simp only [List.foldl_cons, List.length_cons]
    rw [foldl_add_init]
    have ha := h a (by simp)
    have ht := ih (fun x hx => h x (by simp [hx]))
    push_cast
    linarith

theorem maxByFirst_mem {α β : Type} [LinearOrder β] (key : α → β) (l : List α)
    (x : α) (h : maxByFirst key l = some x) : x ∈ l := by
  cases l with
  | nil => simp [maxByFirst] at h
  | cons hd tl =>
    simp only [maxByFirst, Option.some.injEq] at h
    subst h
    refine List.foldlRecOn tl _ hd (by simp) ?_
    intro b hb a ha
    by_cases hk : key b < key a
    · simp [hk, List.mem_cons, ha]
    · simp [hk, hb]

theorem mapO_some {α β : Type} (f : α → β) (l : List α) :
    mapO (fun x => some (f x)) l = some (l.map f) := by
  induction l with
  | nil => rfl
  | cons a tl ih => simp [mapO, ih, List.map_cons, bind, Option.bind]

theorem firstGroupIdx_lt (gm : List (List Nat × List Nat)) (c i : Nat)
    (h : firstGroupIdx gm c = some i) : i < gm.length := by
  induction gm generalizing i with
  | nil => simp [firstGroupIdx] at h
  | cons e tl ih =>
    rw [firstGroupIdx] at h
    split at h
    · cases h
      simp
    · rw [Option.map_eq_some'] at h
      obtain ⟨j, hj, hij⟩ := h
      have := ih j hj
      simp only [List.length_cons]
      omega

theorem newGroupId_le (gm : List (List Nat × List Nat)) (c : Nat) :
    newGroupId gm c ≤ gm.length := by
  unfold newGroupId
  cases h : firstGroupIdx gm c with
  | none => simp
  | some i => exact firstGroupIdx_lt gm c i h

theorem foldlE_ok_inv {e s a : Type} (P : s → Prop) (f : s → a → Except e s)
    (hstep : ∀ st x r, P st → f st x = .ok r → P r) :
    ∀ (l : List a) (st : s) (r : s), P st → foldlE f st l = .ok r → P r := by
  intro l
  induction l with
  | nil =>
    intro st r hst h
    simp only [foldlE, pure, Except.pure] at h
    cases h
    exact hst
  | cons x tl ih =>
    intro st r hst h
    simp only [foldlE] at h
    cases hf : f st x with
    | error err => rw [hf] at h; simp [bind, Except.bind] at h
    | ok st2 =>
      rw [hf] at h
      simp only [bind, Except.bind] at h
      exact ih st2 r (hstep st x st2 hst hf) h

theorem except_bind_ok {e a b : Type} (m : Except e a) (f : a → Except e b)
    (r : b) (h : (m >>= f) = .ok r) : ∃ x, m = .ok x ∧ f x = .ok r := by
  cases m with
  | error err => simp [bind, Except.bind] at h
  | ok x => exact ⟨x, rfl, by simpa [bind, Except.bind] using h⟩

/-- Soundness of the inner column scan: a claimed column is in range and
its distance clears the threshold (the running bound starts at
`max(last column, threshold)` and never decreases). -/
theorem bestColumn_spec (dRow : List ℚ) (claimed : Nat → Bool) (thresh : ℚ)
    (bi : Nat) (h : bestColumn dRow claimed thresh = some bi) :
    bi < dRow.length ∧ thresh ≤ dRow.getD bi 0 := by
  have key :
      (fun st : ℚ × Option Nat => thresh ≤ st.1 ∧
        ∀ j, st.2 = some j → j < dRow.length ∧ thresh ≤ dRow.getD j 0)
      ((List.range dRow.length).foldl (fun st bi =>
        if claimed bi then st
        else if dRow.getD bi 0 < st.1 then st
        else (dRow.getD bi 0, some bi))
        (max (dRow.getLastD 0) thresh, none)) := by
    refine List.foldlRecOn (motive := fun st : ℚ × Option Nat =>
      thresh ≤ st.1 ∧ ∀ j, st.2 = some j → j < dRow.length ∧ thresh ≤ dRow.getD j 0)
      _ _ _ ?_ ?_
    · exact ⟨le_max_right _ _, fun j hj => by simp at hj⟩
    · intro st hst i hi
      by_cases hc : claimed i = true
      · rw [if_pos hc]
        exact hst
      · rw [if_neg hc]
        by_cases hd : dRow.getD i 0 < st.1
        · rw [if_pos hd]
          exact hst
        · rw [if_neg hd]
          have hle : thresh ≤ dRow.getD i 0 := le_trans hst.1 (le_of_not_lt hd)
          refine ⟨hle, ?_⟩
          intro j hj
          cases hj
          exact ⟨List.mem_range.mp hi, hle⟩
  exact key.2 bi h

/-- Soundness of one outer iteration for the pair invariant: every pair
recorded in `matches` or `mispred` has distance at least the threshold. -/
theorem msStep_pairs (d : Ann → Ann → ℚ) (aS bS : List Ann) (thresh : ℚ)
    (st : List (Ann × Ann) × List (Ann × Ann) × List Ann × List Nat)
    (ai : Nat) (hai : ai < aS.length)
    (hst : (∀ p ∈ st.1, thresh ≤ d p.1 p.2) ∧ (∀ p ∈ st.2.1, thresh ≤ d p.1 p.2)) :
    (∀ p ∈ (msStep aS bS (aS.map (fun a => bS.map (fun b => d a b))) thresh st ai).1,
        thresh ≤ d p.1 p.2) ∧
    (∀ p ∈ (msStep aS bS (aS.map (fun a => bS.map (fun b => d a b))) thresh st ai).2.1,
        thresh ≤ d p.1 p.2) := by
  have hrow : (aS.map (fun a => bS.map (fun b => d a b))).getD ai [] =
      bS.map (fun b => d (aS.getD ai dummyAnn) b) := by
    have h1 : ai < (aS.map (fun a => bS.map (fun b => d a b))).length := by
      simpa using hai
    rw [List.getD_eq_getElem _ [] h1, List.getElem_map,
        List.getD_eq_getElem aS dummyAnn hai]
  cases hbc : bestColumn ((aS.map (fun a => bS.map (fun b => d a b))).getD ai [])
      (fun bi => st.2.2.2.contains bi) thresh with
  | none =>
    simp only [msStep, hbc]
    exact hst
  | some bi =>
    obtain ⟨hbi, hge⟩ := bestColumn_spec _ _ _ _ hbc
    have hbi2 : bi < bS.length := by
      rw [hrow] at hbi
      simpa using hbi
    have hval : ((aS.map (fun a => bS.map (fun b => d a b))).getD ai []).getD bi 0 =
        d (aS.getD ai dummyAnn) (bS.getD bi dummyAnn) := by
      rw [hrow]
      have hbl : bi < (bS.map (fun b => d (aS.getD ai dummyAnn) b)).length := by
        simpa using hbi2
      rw [List.getD_eq_getElem _ 0 hbl, List.getElem_map,
          List.getD_eq_getElem bS dummyAnn hbi2]
    rw [hval] at hge
    by_cases hl : (aS.getD ai dummyAnn).label = (bS.getD bi dummyAnn).label
    · simp only [msStep, hbc, if_pos hl]
      refine ⟨?_, hst.2⟩
      intro p hp
      rcases List.mem_append.mp hp with hp | hp
      · exact hst.1 p hp
      · cases List.mem_singleton.mp hp
        exact hge
    · simp only [msStep, hbc, if_neg hl]
      refine ⟨hst.1, ?_⟩
      intro p hp
      rcases List.mem_append.mp hp with hp | hp
      · exact hst.2 p hp
      · cases List.mem_singleton.mp hp
        exact hge

/-- Every matched or mispredicted pair of `match_segments` has distance at
least the threshold. -/
theorem match_segments_pair_ge (d : Ann → Ann → ℚ) (thresh : ℚ)
    (aL bL : List Ann) (x y : Ann)
    (h : (x, y) ∈ (match_segments d thresh aL bL).matched ∨
         (x, y) ∈ (match_segments d thresh aL bL).mispred) :
    thresh ≤ d x y := by
  unfold match_segments at h
  by_cases hemp : (sortByKey msKey bL).isEmpty
  · simp only [hemp, if_true] at h
    rcases h with h | h <;> simp at h
  · simp only [hemp, Bool.false_eq_true, if_false] at h
    set aS := sortByKey msKey aL with haS
    set bS := sortByKey msKey bL with hbS
    have key :
        (fun st : List (Ann × Ann) × List (Ann × Ann) × List Ann × List Nat =>
          (∀ p ∈ st.1, thresh ≤ d p.1 p.2) ∧ (∀ p ∈ st.2.1, thresh ≤ d p.1 p.2))
        ((List.range aS.length).foldl
          (msStep aS bS (aS.map (fun a => bS.map (fun b => d a b))) thresh)
          ([], [], [], [])) := by
      refine List.foldlRecOn (motive := fun st : List (Ann × Ann) × List (Ann × Ann) × List Ann × List Nat =>
        (∀ p ∈ st.1, thresh ≤ d p.1 p.2) ∧ (∀ p ∈ st.2.1, thresh ≤ d p.1 p.2))
        _ _ _ ⟨fun p hp => by simp at hp, fun p hp => by simp at hp⟩ ?_
      intro st hst i hi
      exact msStep_pairs d aS bS thresh st i (List.mem_range.mp hi) hst
    rcases h with h | h
    · exact key.1 (x, y) h
    · exact key.2 (x, y) h

/-- C4 amended: (i) the points distance is 0 whenever the two instance
boxes do not overlap (their IoU is at most 0); (ii) for every positive
`pairwise_dist` threshold, a zero-distance pair is never matched by the
segment matcher — so non-overlapping point sets never become adjacent in
the cluster graph.  (The original claim, quantified over every
`pairwise_dist` and over cluster membership rather than adjacency, is
refuted by `C4_counterexample`.) -/
theorem C4_amended :
    (∀ (oks : Ann → Ann → Box → ℚ) (imap : Nat → Option Box) (a b : Ann)
      (ba bb : Box), imap a.aid = some ba → imap b.aid = some bb →
      bbox_iou ba bb ≤ 0 → pointsDistance oks imap a b = 0) ∧
    (∀ (d : Ann → Ann → ℚ) (thresh : ℚ) (aL bL : List Ann) (x y : Ann),
      0 < thresh → d x y = 0 →
      ¬ ((x, y) ∈ (match_segments d thresh aL bL).matched ∨
         (x, y) ∈ (match_segments d thresh aL bL).mispred)) := by
  constructor
  · intro oks imap a b ba bb hba hbb hle
    unfold pointsDistance pointsDistanceP
    simp [hba, hbb, bind, Option.bind, hle]
  · intro d thresh aL bL x y hpos hzero h
    have hge := match_segments_pair_ge d thresh aL bL x y h
    rw [hzero] at hge
    exact absurd (lt_of_lt_of_le hpos hge) (lt_irrefl 0)

/-- C4 amended, instantiated: the non-overlapping pair of `c4imap` has
distance 0 and is not matched at the shape default threshold 9/10. -/
theorem C4_amended_witness :
    pointsDistance oks1 c4imap c4p1 c4p2 = 0 ∧
    ¬ ((c4p1, c4p2) ∈ (match_segments (pointsDistance oks1 c4imap) (9 / 10)
          [c4p1] [c4p2]).matched ∨
       (c4p1, c4p2) ∈ (match_segments (pointsDistance oks1 c4imap) (9 / 10)
          [c4p1] [c4p2]).mispred) :=
  ⟨C4_amended.1 oks1 c4imap c4p1 c4p2 (0, 0, 1, 1) (5, 5, 1, 1)
      (by with_unfolding_all rfl) (by with_unfolding_all rfl)
      (of_decide_eq_true (by with_unfolding_all rfl)),
   C4_amended.2 (pointsDistance oks1 c4imap) (9 / 10) [c4p1] [c4p2] c4p1 c4p2
      (of_decide_eq_true (by with_unfolding_all rfl))
      (by with_unfolding_all rfl)⟩

/-- C5 amended: for clusters of boxes the claim's rule and the code
coincide — the representative is the member of highest box IoU with the
mean box (the box type distance is the generic segment IoU), first on
ties. -/
theorem C5_amended (cluster : List Ann) (h1 : cluster ≠ [])
    (h2 : ∀ m ∈ cluster, m.typ = AnnType.bbox) :
    specRepresentative (fun a b => some (segment_iou a b)) cluster =
      some (merge_cluster_shape_mean_box_nearest cluster) := by
  cases cluster with
  | nil => exact absurd rfl h1
  | cons hd tl =>
    simp only [specRepresentative, mapO_some, Option.bind, bind]
    rfl

/-- C5 amended, instantiated at a singleton box cluster. -/
theorem C5_amended_witness :
    specRepresentative (fun a b => some (segment_iou a b)) [exA] =
      some (merge_cluster_shape_mean_box_nearest [exA]) :=
  C5_amended [exA] (by simp) (by intro m hm; cases List.mem_singleton.mp hm; rfl)

/-- Every record the zip stage emits has a group id bounded by the number
of discovered cluster groups, provided merged records beyond the zipped
range (possible only for labels, which are created with group 0) carry
group 0. -/
theorem zipStage_group_le (quorum : ℤ) (ignored : List String)
    (srcOf : Nat → Nat) (gm : List (List Nat × List Nat)) (offset : Nat)
    (merged : List Ann) (views : List (List Ann))
    (h0 : ∀ i, min merged.length views.length ≤ i → i < merged.length →
      (merged.getD i dummyAnn).group = 0) :
    ∀ x ∈ (zipStage quorum ignored srcOf gm offset merged views).1,
      x.group ≤ gm.length := by
  unfold zipStage
  refine List.foldlRecOn (motive := fun st : List Ann × List Err =>
    ∀ x ∈ st.1, x.group ≤ gm.length) _ _ _ ?_ ?_
  · intro x hx
    simp at hx
  · intro st hst i hi x hx
    by_cases hin : i < min merged.length views.length
    · rw [if_pos hin] at hx
      rcases List.mem_append.mp hx with hx | hx
      · exact hst x hx
      · cases List.mem_singleton.mp hx
        simpa using newGroupId_le gm (offset + i)
    · rw [if_neg hin] at hx
      rcases List.mem_append.mp hx with hx | hx
      · exact hst x hx
      · cases List.mem_singleton.mp hx
        have h2 : (merged.getD i dummyAnn).group = 0 :=
          h0 i (le_of_not_lt hin) (List.mem_range.mp hi)
        omega

/-- Every merged label record carries group 0 (`Label` objects are created
fresh with the default group). -/
theorem labelMerger_ok_group (srcOf : Nat → Nat) (quorum : ℤ) (nD : Nat)
    (clusters : List (List Ann)) (r : List Ann × List Err)
    (h : labelMergerMergeClusters srcOf quorum nD clusters = .ok r) :
    ∀ a ∈ r.1, a.group = 0 := by
  unfold labelMergerMergeClusters at h
  split at h
  · simp at h
  · cases clusters with
    | nil =>
      simp only [pure, Except.pure, Except.ok.injEq] at h
      subst h
      intro a ha
      simp at ha
    | cons cluster rest =>
      refine foldlE_ok_inv (fun acc : List Ann × List Err => ∀ a ∈ acc.1, a.group = 0)
        _ ?_ (labelCounts cluster) ([], []) r ?_ h
      · intro st x r2 hst hf
        split at hf
        · obtain ⟨srcsRaw, hm, hf2⟩ := except_bind_ok _ _ _ hf
          obtain ⟨u, hu, hf3⟩ := except_bind_ok _ _ _ hf2
          simp only [pure, Except.pure, Except.ok.injEq] at hf3
          subst hf3
          exact hst
        · simp only [pure, Except.pure, Except.ok.injEq] at hf
          subst hf
          intro a ha
          rcases List.mem_append.mp ha with ha | ha
          · exact hst a ha
          · cases List.mem_singleton.mp ha
            rfl
      · intro a ha
        simp at ha

/-- Per-tag group bound: every record emitted by one tag of the merge loop
has a group id bounded by the number of discovered cluster groups. -/
theorem processType_group_le (oks : Ann → Ann → Box → ℚ)
    (imap : Nat → Option Box) (conf : Conf) (nD : Nat)
    (itemNE : Nat → Bool) (srcOf : Nat → Nat)
    (gm : List (List Nat × List Nat)) (offset : Nat) (t : AnnType)
    (clusters : List (List Ann)) (r : List Ann × List Err)
    (h : processType oks imap conf nD itemNE srcOf gm offset t clusters = .ok r) :
    ∀ x ∈ r.1, x.group ≤ gm.length := by
  unfold processType at h
  cases t with
  | caption => simp at h
  | label =>
    cases hme : labelMergerMergeClusters srcOf conf.quorum nD clusters with
    | error e => rw [hme] at h; simp at h
    | ok me =>
      rw [hme] at h
      simp only [Except.ok.injEq] at h
      subst h
      refine zipStage_group_le _ _ _ _ _ _ _ ?_
      intro i hmin hlen
      have hmem : me.1.getD i dummyAnn ∈ me.1 := by
        rw [List.getD_eq_getElem me.1 dummyAnn hlen]
        exact List.getElem_mem hlen
      exact labelMerger_ok_group srcOf conf.quorum nD clusters me hme _ hmem
  | bbox =>
    cases hmv : shapeMergerMergeClusters (typeDistance oks imap AnnType.bbox)
        conf.quorum clusters with
    | error e => rw [hmv] at h; simp at h
    | ok mv =>
      rw [hmv] at h
      simp only [Except.ok.injEq] at h
      subst h
      refine zipStage_group_le _ _ _ _ _ _ _ ?_
      intro i hmin hlen
      simp at hmin hlen
      omega
  | polyline =>
    cases hmv : shapeMergerMergeClusters (typeDistance oks imap AnnType.polyline)
        conf.quorum clusters with
    | error e => rw [hmv] at h; simp at h
    | ok mv =>
      rw [hmv] at h
      simp only [Except.ok.injEq] at h
      subst h
      refine zipStage_group_le _ _ _ _ _ _ _ ?_
      intro i hmin hlen
      simp at hmin hlen
      omega
  | points =>
    cases hmv : shapeMergerMergeClusters (typeDistance oks imap AnnType.points)
        conf.quorum clusters with
    | error e => rw [hmv] at h; simp at h
    | ok mv =>
      rw [hmv] at h
      simp only [Except.ok.injEq] at h
      subst h
      refine zipStage_group_le _ _ _ _ _ _ _ ?_
      intro i hmin hlen
      simp at hmin hlen
      omega

/-- Pipeline group bound: every record the per-item merge emits has a group
id bounded by the number of cluster groups discovered over the run's
clusters. -/
theorem mergeAnnsPipeline_group_le (oks : Ann → Ann → Box → ℚ) (conf : Conf)
    (nD : Nat) (itemNE : Nat → Bool) (lblName : ℤ → String)
    (sources : List (List Ann)) (cbt : List (AnnType × List (List Ann)))
    (r : List Ann × List Err)
    (hc : clustersByTypeOf oks (imapFn (mkInstanceMap sources)) conf sources = .ok cbt)
    (h : mergeAnnsPipeline oks conf nD itemNE lblName sources = .ok r) :
    ∀ a ∈ r.1,
      a.group ≤ (find_cluster_groups ((cbt.map (fun e => e.2)).flatten)).length := by
  simp only [mergeAnnsPipeline] at h
  rw [hc] at h
  simp only [Except.ok.injEq] at h
  cases hfold : foldlE (fun (acc : List Ann × List Err × Nat) tc =>
      match processType oks (imapFn (mkInstanceMap sources)) conf nD itemNE
        (srcOfFn sources)
        (find_cluster_groups ((cbt.map (fun e => e.2)).flatten))
        acc.2.2 tc.1 tc.2 with
      | .error e => .error e
      | .ok ae => .ok (acc.1 ++ ae.1, acc.2.1 ++ ae.2, acc.2.2 + tc.2.length))
      ([], [], 0) cbt with
  | error e => rw [hfold] at h; simp at h
  | ok fin =>
    rw [hfold] at h
    simp only [Except.ok.injEq] at h
    subst h
    intro a ha
    refine foldlE_ok_inv (fun acc : List Ann × List Err × Nat => ∀ x ∈ acc.1,
        x.group ≤ (find_cluster_groups ((cbt.map (fun e => e.2)).flatten)).length)
      _ ?_ cbt ([], [], 0) fin ?_ hfold a ha
    · intro st tc r2 hst hf
      cases hae : processType oks (imapFn (mkInstanceMap sources)) conf nD itemNE
          (srcOfFn sources)
          (find_cluster_groups ((cbt.map (fun e => e.2)).flatten))
          st.2.2 tc.1 tc.2 with
      | error e => rw [hae] at hf; simp at hf
      | ok ae =>
        rw [hae] at hf
        simp only [Except.ok.injEq] at hf
        subst hf
        intro x hx
        rcases List.mem_append.mp hx with hx | hx
        · exact hst x hx
        · exact processType_group_le _ _ _ _ _ _ _ _ _ _ _ hae x hx
    · intro x hx
      simp at hx

/-- C7 amended: in every merged item, every emitted record's group id lies
in `{0, …, k}`, where `k` is the number of cluster groups discovered over
the item's clusters; density of `{1, …, k}` itself fails (see the
counterexample) because the confidence filter can drop records after the
ids are assigned. -/
theorem C7_amended (oks : Ann → Ann → Box → ℚ) (conf : Conf) (nD : Nat)
    (itemNE : Nat → Bool) (lblName : ℤ → String) (sources : List (List Ann))
    (cbt : List (AnnType × List (List Ann))) (anns : List Ann) (errs : List Err)
    (hc : clustersByTypeOf oks (imapFn (mkInstanceMap sources)) conf sources = .ok cbt)
    (h : mergeItemAnns oks conf nD itemNE lblName sources = .ok (anns, errs)) :
    ∀ a ∈ anns,
      a.group ≤ (find_cluster_groups ((cbt.map (fun e => e.2)).flatten)).length := by
  unfold mergeItemAnns at h
  cases hp : mergeAnnsPipeline oks conf nD itemNE lblName sources with
  | error e => rw [hp] at h; simp at h
  | ok ae =>
    rw [hp] at h
    simp only [Except.ok.injEq, Prod.mk.injEq] at h
    obtain ⟨h1, h2⟩ := h
    subst h1
    intro a ha
    exact mergeAnnsPipeline_group_le oks conf nD itemNE lblName sources cbt ae hc hp
      a (List.mem_of_mem_filter ha)

/-- C7 amended, instantiated on the C7 run: the surviving record's group 2
is bounded by the two discovered cluster groups. -/
theorem C7_amended_witness : c7survivor.group ≤ 2 := by
  have h := C7_amended oks1 c7conf 1 (fun _ => true) (fun _ => "lbl")
    [[c7b1, c7b2]] [(AnnType.bbox, [[c7b1], [c7b2]])] [c7survivor] []
    (by with_unfolding_all rfl) (by with_unfolding_all rfl)
    c7survivor (List.mem_singleton.mpr rfl)
  simpa using h

/-- Rectangle IoU is always in `[0, 1]`: a positive intersection forces
positive widths and heights, and the intersection never exceeds either
area, hence not the union. -/
theorem rectIoU_bounds (a b : Box) : 0 ≤ rectIoU a b ∧ rectIoU a b ≤ 1 := by
  unfold rectIoU
  by_cases hcond : min (a.1 + a.2.2.1) (b.1 + b.2.2.1) - max a.1 b.1 ≤ 0 ∨
      min (a.2.1 + a.2.2.2) (b.2.1 + b.2.2.2) - max a.2.1 b.2.1 ≤ 0
  · rw [if_pos hcond]
    norm_num
  · rw [if_neg hcond]
    push_neg at hcond
    obtain ⟨hiw0, hih0⟩ := hcond
    set iw := min (a.1 + a.2.2.1) (b.1 + b.2.2.1) - max a.1 b.1 with hiw
    set ih := min (a.2.1 + a.2.2.2) (b.2.1 + b.2.2.2) - max a.2.1 b.2.1 with hih
    have hwa : iw ≤ a.2.2.1 := by
      have h1 := min_le_left (a.1 + a.2.2.1) (b.1 + b.2.2.1)
      have h2 := le_max_left a.1 b.1
      rw [hiw]
      linarith
    have hwb : iw ≤ b.2.2.1 := by
      have h1 := min_le_right (a.1 + a.2.2.1) (b.1 + b.2.2.1)
      have h2 := le_max_right a.1 b.1
      rw [hiw]
      linarith
    have hha : ih ≤ a.2.2.2 := by
      have h1 := min_le_left (a.2.1 + a.2.2.2) (b.2.1 + b.2.2.2)
      have h2 := le_max_left a.2.1 b.2.1
      rw [hih]
      linarith
    have hhb : ih ≤ b.2.2.2 := by
      have h1 := min_le_right (a.2.1 + a.2.2.2) (b.2.1 + b.2.2.2)
      have h2 := le_max_right a.2.1 b.2.1
      rw [hih]
      linarith
    have hainter : iw * ih ≤ a.2.2.1 * a.2.2.2 :=
      mul_le_mul hwa hha (le_of_lt hih0) (le_trans (le_of_lt hiw0) hwa)
    have hbinter : iw * ih ≤ b.2.2.1 * b.2.2.2 :=
      mul_le_mul hwb hhb (le_of_lt hih0) (le_trans (le_of_lt hiw0) hwb)
    have hipos : 0 < iw * ih := mul_pos hiw0 hih0
    have huni : iw * ih ≤ a.2.2.1 * a.2.2.2 + b.2.2.1 * b.2.2.2 - iw * ih := by
      linarith
    have hupos : 0 < a.2.2.1 * a.2.2.2 + b.2.2.1 * b.2.2.2 - iw * ih :=
      lt_of_lt_of_le hipos huni
    exact ⟨div_nonneg (le_of_lt hipos) (le_of_lt hupos),
      (div_le_one hupos).mpr huni⟩

/-- The generic segment IoU is always in `[0, 1]`. -/
theorem segment_iou_bounds (a b : Ann) :
    0 ≤ segment_iou a b ∧ segment_iou a b ≤ 1 := by
  unfold segment_iou
  split
  · exact rectIoU_bounds _ _
  · norm_num

/-- Setting a key of an insertion-ordered dict makes it present with the
new value. -/
theorem dictGet_dictSet (d : List (String × AttrVal)) (k : String) (v : AttrVal) :
    dictGet (dictSet d k v) k = some v := by
  induction d with
  | nil => simp [dictGet, dictSet]
  | cons hd tl ih =>
    by_cases hk : hd.1 = k
    · simp [dictSet, dictGet, List.find?_cons, hk]
    · by_cases hfind : (tl.find? (fun kv => kv.1 = k)).isSome = true
      · have hset : dictSet (hd :: tl) k v =
            hd :: tl.map (fun kv => if kv.1 = k then (k, v) else kv) := by
          simp [dictSet, List.find?_cons, hk, hfind]
        have htl : dictSet tl k v =
            tl.map (fun kv => if kv.1 = k then (k, v) else kv) := by
          simp [dictSet, hfind]
        rw [hset]
        rw [htl] at ih
        simpa [dictGet, List.find?_cons, hk] using ih
      · have hset : dictSet (hd :: tl) k v = (hd :: tl) ++ [(k, v)] := by
          simp [dictSet, List.find?_cons, hk, hfind]
        have htl : dictSet tl k v = tl ++ [(k, v)] := by
          simp [dictSet, hfind]
        rw [hset]
        rw [htl] at ih
        simpa [dictGet, List.find?_cons, hk] using ih

/-- Score bounds of the label-vote tally: every entry's summed score stays
between 0 and its count, and counts are at least 1, provided every member
score is in `[0, 1]`. -/
theorem labelVotes_bounds (cluster : List Ann)
    (hs : ∀ m ∈ cluster, 0 ≤ getScore m ∧ getScore m ≤ 1) :
    ∀ e ∈ labelVotes cluster,
      0 ≤ e.2.1 ∧ e.2.1 ≤ (e.2.2 : ℚ) ∧ 1 ≤ e.2.2 := by
  unfold labelVotes
  refine List.foldlRecOn (motive := fun vs : List (Option ℤ × ℚ × Nat) =>
    ∀ e ∈ vs, 0 ≤ e.2.1 ∧ e.2.1 ≤ (e.2.2 : ℚ) ∧ 1 ≤ e.2.2) _ _ _ ?_ ?_
  · intro e he
    simp at he
  · intro vs hvs s hsmem
    have hss := hs s hsmem
    by_cases hfind : ((vs.find? (fun e => e.1 = s.label)).isSome) = true
    · rw [if_pos hfind]
      intro e he
      obtain ⟨e0, he0, hfe⟩ := List.mem_map.mp he
      obtain ⟨h1, h2, h3⟩ := hvs e0 he0
      by_cases heq : e0.1 = s.label
      · rw [if_pos heq] at hfe
        subst hfe
        refine ⟨add_nonneg h1 hss.1, ?_, Nat.le_add_left 1 e0.2.2⟩
        show e0.2.1 + getScore s ≤ ((e0.2.2 + 1 : ℕ) : ℚ)
        push_cast
        linarith [hss.2]
      · rw [if_neg heq] at hfe
        subst hfe
        exact ⟨h1, h2, h3⟩
    · rw [if_neg hfind]
      intro e he
      rcases List.mem_append.mp he with he | he
      · exact hvs e he
      · cases List.mem_singleton.mp he
        exact ⟨hss.1, by simpa using hss.2, le_refl 1⟩

/-- A successful label vote returns a label score in `[0, 1]` (when one is
returned at all) and certifies the cluster nonempty. -/
theorem find_cluster_label_ok (quorum : ℤ) (cluster : List Ann)
    (res : Option ℤ × Option ℚ)
    (hs : ∀ m ∈ cluster, 0 ≤ getScore m ∧ getScore m ≤ 1)
    (h : find_cluster_label quorum cluster = .ok res) :
    (∀ q, res.2 = some q → 0 ≤ q ∧ q ≤ 1) ∧ cluster ≠ [] := by
  simp only [find_cluster_label] at h
  split at h
  · simp at h
  · next lsc hmb =>
    have hmem := maxByFirst_mem _ _ _ hmb
    obtain ⟨h1, h2, h3⟩ := labelVotes_bounds cluster hs lsc hmem
    have hne : cluster ≠ [] := by
      intro hcl
      subst hcl
      rw [show labelVotes [] = [] from rfl] at hmb
      simp [maxByFirst] at hmb
    have hres : res =
        (lsc.1, if lsc.2.2 ≠ 0 then some (lsc.2.1 / (lsc.2.2 : ℚ)) else none) := by
      split at h
      · rw [show failedLabelVotingArity 1 = Except.error PyErr.typeError from rfl] at h
        simp at h
      · simp only [Except.ok.injEq] at h
        exact h.symm
    subst hres
    refine ⟨?_, hne⟩
    intro q hsome
    simp only at hsome
    by_cases hz : lsc.2.2 ≠ 0
    · rw [if_pos hz] at hsome
      cases hsome
      have hcpos : (0 : ℚ) < (lsc.2.2 : ℚ) := by
        have h4 : (1 : ℚ) ≤ (lsc.2.2 : ℚ) := by exact_mod_cast h3
        linarith
      exact ⟨div_nonneg h1 (le_of_lt hcpos), (div_le_one hcpos).mpr h2⟩
    · rw [if_neg hz] at hsome
      simp at hsome

/-- Merged-score bound for the generic-IoU shape merger: member scores in
`[0, 1]` give a merged score in `[0, 1]`. -/
theorem shapeMergeOne_score (quorum : ℤ) (cluster : List Ann) (m : Ann)
    (view : List Ann)
    (hs : ∀ x ∈ cluster, 0 ≤ getScore x ∧ getScore x ≤ 1)
    (h : shapeMergeOne segment_iou quorum cluster = .ok (m, view)) :
    0 ≤ getScore m ∧ getScore m ≤ 1 := by
  unfold shapeMergeOne at h
  cases hls : find_cluster_label quorum cluster with
  | error e => rw [hls] at h; simp at h
  | ok ls =>
    rw [hls] at h
    obtain ⟨hb, hne⟩ := find_cluster_label_ok quorum cluster ls hs hls
    have hlen : 0 < (cluster.length : ℚ) := by
      cases cluster with
      | nil => exact absurd rfl hne
      | cons hd tl => exact_mod_cast Nat.succ_pos tl.length
    have hss : 0 ≤ (merge_cluster_shape segment_iou cluster).2 ∧
        (merge_cluster_shape segment_iou cluster).2 ≤ 1 := by
      unfold merge_cluster_shape
      constructor
      · apply div_nonneg _ (le_of_lt hlen)
        apply foldl_add_nonneg
        intro x hx
        obtain ⟨s, hsm, hxe⟩ := List.mem_map.mp hx
        subst hxe
        exact le_max_left 0 _
      · rw [div_le_one hlen]
        have hsum := foldl_add_le_len
          (cluster.map (fun s => max 0 (segment_iou
            (merge_cluster_shape_mean_box_nearest cluster) s)))
          ?_
        · simpa using hsum
        · intro x hx
          obtain ⟨s, hsm, hxe⟩ := List.mem_map.mp hx
          subst hxe
          exact max_le zero_le_one (segment_iou_bounds _ s).2
    simp only [Except.ok.injEq, Prod.mk.injEq] at h
    obtain ⟨hm, hv⟩ := h
    subst hm
    have hgs : getScore { (merge_cluster_shape segment_iou cluster).1 with
        label := ls.1
        z_order := ((maxByFirst (fun a => a.z_order) cluster).getD dummyAnn).z_order
        attrs := dictSet (merge_cluster_shape segment_iou cluster).1.attrs "score"
          (.q (match ls.1, ls.2 with
            | some _, some l => l * (merge_cluster_shape segment_iou cluster).2
            | some _, none => (merge_cluster_shape segment_iou cluster).2
            | none, _ => (merge_cluster_shape segment_iou cluster).2)) } =
        (match ls.1, ls.2 with
          | some _, some l => l * (merge_cluster_shape segment_iou cluster).2
          | some _, none => (merge_cluster_shape segment_iou cluster).2
          | none, _ => (merge_cluster_shape segment_iou cluster).2) := by
      unfold getScore
      rw [dictGet_dictSet]
    rw [hgs]
    rcases ls with ⟨l1, l2⟩
    cases l1 with
    | none => exact hss
    | some lv =>
      cases l2 with
      | none => exact hss
      | some lq =>
        obtain ⟨hq0, hq1⟩ := hb lq rfl
        constructor
        · exact mul_nonneg hq0 hss.1
        · calc lq * (merge_cluster_shape segment_iou cluster).2 ≤
              1 * 1 := by
                apply mul_le_mul hq1 hss.2 hss.1 zero_le_one
          _ = 1 := by norm_num

/-- The confidence filter of the per-item tail: every emitted record's
score clears `output_conf_thresh`. -/
theorem mergeItemAnns_thresh (oks : Ann → Ann → Box → ℚ) (conf : Conf)
    (nD : Nat) (itemNE : Nat → Bool) (lblName : ℤ → String)
    (sources : List (List Ann)) (anns : List Ann) (errs : List Err)
    (h : mergeItemAnns oks conf nD itemNE lblName sources = .ok (anns, errs)) :
    ∀ a ∈ anns, conf.output_conf_thresh ≤ getScore a := by
  unfold mergeItemAnns at h
  cases hp : mergeAnnsPipeline oks conf nD itemNE lblName sources with
  | error e => rw [hp] at h; simp at h
  | ok ae =>
    rw [hp] at h
    simp only [Except.ok.injEq, Prod.mk.injEq] at h
    obtain ⟨h1, h2⟩ := h
    subst h1
    intro a ha
    exact of_decide_eq_true (List.mem_filter.mp ha).2

/-- C8 amended: (i) for the box/polygon/mask mergers, whose per-type
distance is the generic segment IoU, a cluster of members with scores in
`[0, 1]` merges to a record with score in `[0, 1]`; (ii) after the output
filter every emitted record's score is at least `output_conf_thresh`.  The
unrestricted `[0, 1]` bound of the original claim fails for polylines (see
the counterexample). -/
theorem C8_amended :
    (∀ (quorum : ℤ) (cluster : List Ann) (m : Ann) (view : List Ann),
      (∀ x ∈ cluster, 0 ≤ getScore x ∧ getScore x ≤ 1) →
      shapeMergeOne segment_iou quorum cluster = .ok (m, view) →
      0 ≤ getScore m ∧ getScore m ≤ 1) ∧
    (∀ (oks : Ann → Ann → Box → ℚ) (conf : Conf) (nD : Nat)
      (itemNE : Nat → Bool) (lblName : ℤ → String) (sources : List (List Ann))
      (anns : List Ann) (errs : List Err),
      mergeItemAnns oks conf nD itemNE lblName sources = .ok (anns, errs) →
      ∀ a ∈ anns, conf.output_conf_thresh ≤ getScore a) :=
  ⟨fun quorum cluster m view hs h => shapeMergeOne_score quorum cluster m view hs h,
   fun oks conf nD itemNE lblName sources anns errs h =>
     mergeItemAnns_thresh oks conf nD itemNE lblName sources anns errs h⟩

/-- C8 amended, instantiated: the singleton bbox cluster merges to score 1
in `[0, 1]`, and the merged polyline of the C8 run (score 3/2) still clears
the default threshold 0. -/
theorem C8_amended_witness :
    ((0 : ℚ) ≤ getScore ⟨0, Shape.sBbox 0 0 10 10, some 0, 0, 0,
        [("score", AttrVal.q 1)]⟩ ∧
      getScore (⟨0, Shape.sBbox 0 0 10 10, some 0, 0, 0,
        [("score", AttrVal.q 1)]⟩ : Ann) ≤ 1) ∧
    (Conf.output_conf_thresh {} ≤ getScore c8merged) :=
  ⟨C8_amended.1 0 c3cluster
      ⟨0, Shape.sBbox 0 0 10 10, some 0, 0, 0, [("score", AttrVal.q 1)]⟩
      [⟨0, Shape.sBbox 0 0 10 10, some 0, 0, 0, [("score", AttrVal.q 1)]⟩]
      (by intro x hx; cases List.mem_singleton.mp hx;
          exact ⟨by norm_num [getScore, dictGet, c3cluster],
                 by norm_num [getScore, dictGet, c3cluster]⟩)
      (by with_unfolding_all rfl),
   C8_amended.2 oks1 {} 2 (fun _ => true) (fun _ => "lbl") [[c8a], [c8b]]
      [c8merged] [] (by with_unfolding_all rfl) c8merged
      (List.mem_singleton.mpr rfl)⟩

/-! the claim theorems. -/

/-- C1: the claim — every cluster returned by shape matching has pairwise
distinct sources — fails on the code: matching the boxes of `c1sources`
(sources 0, 1, 2 with pairwise-match edges exA–exB, exA–exC, exB–exD) puts
both records of source 2 into one cluster, because the same-source filter
is applied only when a candidate is queued, while queued candidates are
later admitted unconditionally.  The returned cluster has 4 members from 3
distinct sources. -/
theorem C1_same_source_cluster :
    c1clusters = [[exA, exB, exC, exD]] ∧
    distinctSources c1sources [exA, exB, exC, exD] = 3 ∧
    ([exA, exB, exC, exD] : List Ann).length = 4 :=
  ⟨by with_unfolding_all rfl, by with_unfolding_all rfl, rfl⟩

/-- C2: the claim — lists passed to the segment matcher keep their contents
and order — fails on the code: `match_segments` sorts both input lists in
place by descending score, so the post-call state of `[c2lo, c2hi]`
(scores 1/2 and 1) is the reversed list. -/
theorem C2_match_segments_reorders :
    c2run.a_after = [c2hi, c2lo] ∧ [c2hi, c2lo] ≠ [c2lo, c2hi] :=
  ⟨by with_unfolding_all rfl,
   of_decide_eq_false (by with_unfolding_all rfl)⟩

/-- C3: the claim — a shape cluster whose winning label vote is below
quorum yields a recorded `FailedLabelVotingError` and merging continues —
fails on the code: `find_cluster_label` constructs the error with one
positional argument after the item id where two are required, so the merge
of a singleton bbox cluster under quorum 2 raises `TypeError` instead of
recording anything. -/
theorem C3_shape_quorum_failure_raises :
    shapeMergerMergeClusters segment_iou 2 [c3cluster] =
      Except.error PyErr.typeError := by with_unfolding_all rfl

/-- C4 counterexample: at `pairwise_dist = 0` two point sets with disjoint
instance boxes (distance 0) are matched and clustered together, refuting
"never placed in the same cluster, for every value of pairwise_dist". -/
theorem C4_counterexample :
    pointsDistance oks1 c4imap c4p1 c4p2 = 0 ∧
    bbox_iou (0, 0, 1, 1) (5, 5, 1, 1) ≤ 0 ∧
    c4clusters = [[c4p1, c4p2]] :=
  ⟨by with_unfolding_all rfl,
   of_decide_eq_true (by with_unfolding_all rfl),
   by with_unfolding_all rfl⟩

/-- C5 counterexample: for a points cluster the code returns the first
member (all segment-IoU values against the mean box are 0), while the rule
the claim states — maximise the type's own distance `d(mean_bbox, member)`
— is undefined there: the points distance looks the fresh mean box up in
the identity-keyed instance map and fails.  The code's selection therefore
is not the claimed rule. -/
theorem C5_counterexample :
    merge_cluster_shape_mean_box_nearest c5cluster = c5p1 ∧
    specRepresentative (pointsDistanceP oks1 c5imap) c5cluster = none :=
  ⟨by with_unfolding_all rfl, by with_unfolding_all rfl⟩

/-- C6: the claim — the attr-vote failure names exactly the outlier
sources — fails on the code: with attribute `x` valued 1, 1, 2 across
sources 0, 1, 2 and quorum 3, the outliers are exactly source 2, but the
emitted error names all three sources, because the comprehension condition
reads the stale loop variable (the last member, whose value 2 differs from
the winner 1, making the condition constantly true). -/
theorem C6_stale_attr_blame :
    c6run.2 = [Err.failedAttrVoting [0, 1, 2] "x" c6a1] ∧
    ((c6cluster.filter (fun a => ¬ dictGet a.attrs "x" = some (AttrVal.i 1))).map
      (fun a => a.aid)) = [2] :=
  ⟨by with_unfolding_all rfl, rfl⟩

/-- C9: the claim — labels below quorum produce a `FailedLabelVotingError`
naming the omitting sources — fails on the code: the query iterates over a
`Label` record (`for l in a`), which raises `TypeError`; with quorum 0 the
passing half of the claim behaves as stated, one merged label scored
`count / n_datasets = 1/2`. -/
theorem C9_label_merger :
    labelMergerMergeClusters (fun k => k) 2 2 [c9cluster] =
      Except.error PyErr.typeError ∧
    labelMergerMergeClusters (fun k => k) 0 2 [c9cluster] =
      Except.ok ([mkLabelAnn (some 0) (1 / 2)], []) :=
  ⟨by with_unfolding_all rfl, by with_unfolding_all rfl⟩

/-- C10: the claim — the combinator returns the count-weighted pooled mean
— fails on the code: `pairwise_stats` returns `mean_a/2 + mean_b/2`; on
samples with counts 2 and 4 and means 0 and 3 it yields 3/2 where the
pooled mean of the combined sample is 2.  (The returned count 6 and the
unbiased variance 12/5 of this call are the correct pooled values.) -/
theorem C10_pairwise_mean_unweighted :
    pairwise_stats 2 0 0 4 3 0 = (6, 3 / 2, 12 / 5) ∧
    pooledMean 2 0 4 3 = 2 ∧
    (pairwise_stats 2 0 0 4 3 0).2.1 ≠ pooledMean 2 0 4 3 :=
  ⟨by with_unfolding_all rfl, by with_unfolding_all rfl,
   of_decide_eq_false (by with_unfolding_all rfl)⟩

/-- C7 counterexample: the merged item of the C7 run keeps only the record
with group 2 (the group-1 record is dropped by the confidence filter), so
its non-zero group ids are `{2}`, which is `{1, …, k}` for no `k`. -/
theorem C7_counterexample :
    c7run = Except.ok ([c7survivor], []) ∧ ¬ denseGroups [c7survivor] := by
  refine ⟨by with_unfolding_all rfl, ?_⟩
  rintro ⟨k, h⟩
  have hm : [c7survivor].map (fun a => a.group) = [2] := rfl
  have h2 := (h 2).mp ⟨by omega, by rw [hm]; exact List.mem_singleton.mpr rfl⟩
  have h1 := (h 1).mpr ⟨le_refl 1, le_trans (by omega) h2.2⟩
  rw [hm] at h1
  simp at h1

/-- C8 counterexample: the merged polyline of the C8 run is emitted with
score 3/2 — the line distance `|1 − s|` is not bounded by 1, so a merged
score can leave `[0, 1]` even though every input score is in `[0, 1]`. -/
theorem C8_counterexample :
    c8run = Except.ok ([c8merged], []) ∧
    getScore c8merged = 3 / 2 ∧ ¬ getScore c8merged ≤ 1 :=
  ⟨by with_unfolding_all rfl, by with_unfolding_all rfl,
   of_decide_eq_false (by with_unfolding_all rfl)⟩

end Ops
